import Mathlib

/-!
# Verification of the transaction-edit and period-balance engines

Shallow embedding of two server modules of a double-entry bookkeeping
application:

* `server/controllers/finance/journal` (the posting-journal HTTP controller):
  `editTransaction`, `transformColumns`, `getTransactionDate`,
  `lookupTransaction` and the store mutations they queue;
* `server/controllers/finance/accounts/extra.js` (the period-balance
  aggregator): `getOpeningBalanceForDate` and its three query helpers.

Conventions of the embedding:

* Calendar dates are modelled as integers (`Date := Int`), encoded so that the
  encoding is strictly monotone in the calendar date (e.g. `yyyymmdd`); SQL
  `DATE(x)` casts and JavaScript `new Date(s)` parsing are value-preserving on
  this representation.
* Monetary amounts are exact rationals (`ℚ`).  A SQL `NULL` amount and a zero
  amount are indistinguishable to the JavaScript code under test (both are
  falsy), so `NULL` results of the exchange-rate query are modelled as `0`.
* Database reads go through an `Env` of lookup oracles returning
  `Except JErr _`; a `.error` result models an infrastructure failure or a
  rejected query promise.  Database writes are queued as `JQuery` values and
  applied to the `Store` only by `executeQueue`, mirroring
  `db.transaction().addQuery(...)` / `.execute()`.
* Error messages that the source builds by string interpolation are modelled
  as fixed strings; the machine-readable error codes are modelled verbatim.
-/

/-- Calendar dates, as a strictly monotone integer encoding (`yyyymmdd`). -/
abbrev Date := Int

/-- The error taxonomy of the server: `NotFound`, `BadRequest` (with a stable
machine-readable code), and infrastructure-level store failures (rejected
database promises, crashed destructuring, etc.). -/
inductive JErr where
  | notFound (description : String)
  | badRequest (description : String) (code : String)
  | storeFailure
  deriving Repr, DecidableEq

/-- Boolean view of an `Except` result (`true` on `.ok`). -/
def isOkE {ε α : Type} : Except ε α → Bool
  | .ok _ => true
  | .error _ => false

/-! ## Embedding of `accounts/extra.js` -/

/-- A row of the `fiscal_year` table (the columns used by `extra.js`). -/
structure FYRow where
  id : Nat
  start_date : Date
  end_date : Date
  deriving Repr, DecidableEq

/-- A row of the `period` table. `number = 0` is the synthetic
opening-balance period. -/
structure PeriodRow where
  id : Nat
  fiscal_year_id : Nat
  number : Nat
  start_date : Date
  end_date : Date
  deriving Repr, DecidableEq

/-- A row of the `period_total` table: a precomputed per-period aggregate. -/
structure PeriodTotalRow where
  account_id : Nat
  period_id : Nat
  debit : ℚ
  credit : ℚ
  deriving Repr, DecidableEq

/-- A `general_ledger` line, restricted to the columns read by `extra.js`:
native-currency `debit`/`credit` and enterprise-currency
`debit_equiv`/`credit_equiv`. -/
structure GLRow where
  account_id : Nat
  period_id : Nat
  trans_date : Date
  debit : ℚ
  credit : ℚ
  debit_equiv : ℚ
  credit_equiv : ℚ
  deriving Repr, DecidableEq

/-- The read-only database state seen by the period-balance aggregator. -/
structure AccountsDb where
  fiscal_years : List FYRow
  periods : List PeriodRow
  period_totals : List PeriodTotalRow
  general_ledger : List GLRow
  deriving Repr, DecidableEq

/-- `db.one`: resolves when the query returns exactly one row, rejects with
`NotFound` on zero rows and with an infrastructure error on several rows. -/
def dbOne {α : Type} (rows : List α) : Except JErr α :=
  match rows with
  | [x] => .ok x
  | [] => .error (.notFound "Expected one row, received zero")
  | _ => .error .storeFailure

/-- `getFiscalYearForDate`: `SELECT id FROM fiscal_year WHERE start_date <=
DATE(?) AND end_date >= DATE(?)`, through `db.one`. -/
def getFiscalYearForDate (db : AccountsDb) (date : Date) : Except JErr Nat :=
  (dbOne (db.fiscal_years.filter
    (fun f => decide (f.start_date ≤ date ∧ date ≤ f.end_date)))).map (fun f => f.id)

/-- `getPeriodForDate`: `SELECT id FROM period WHERE start_date <= DATE(?) AND
end_date >= DATE(?)`, through `db.one`. -/
def getPeriodForDate (db : AccountsDb) (date : Date) : Except JErr Nat :=
  (dbOne (db.periods.filter
    (fun p => decide (p.start_date ≤ date ∧ date ≤ p.end_date)))).map (fun p => p.id)

/-- The one-row result shape of the two `SUM` queries
(`debit`, `credit`, `balance`). -/
structure BalanceRow where
  debit : ℚ
  credit : ℚ
  balance : ℚ
  deriving Repr, DecidableEq

/-- Row-by-row accumulation of a `SUM(debit), SUM(credit), SUM(f(row))`
aggregate; the `IFNULL(..., 0)` defaults are the fold's initial value. -/
def sumBalance {α : Type} (debitOf creditOf balanceOf : α → ℚ) (rows : List α) : BalanceRow :=
  rows.foldl
    (fun acc r =>
      ⟨acc.debit + debitOf r, acc.credit + creditOf r, acc.balance + balanceOf r⟩)
    ⟨0, 0, 0⟩

/-- `getPeriodAccountBalanceUntilDate`: sums `period_total` rows joined with
`period` on `period.id = period_total.period_id`, keeping rows with the
matching account, the matching fiscal year, and
`period.number = 0 OR DATE(period.end_date) < DATE(?)`.
`balance` is `SUM(debit - credit)` over the native-currency totals. -/
def getPeriodAccountBalanceUntilDate (db : AccountsDb) (accountId : Nat) (date : Date)
    (fiscalYearId : Nat) : BalanceRow :=
  sumBalance (fun pt => pt.debit) (fun pt => pt.credit) (fun pt => pt.debit - pt.credit)
    (db.period_totals.flatMap (fun pt =>
      (db.periods.filter (fun p => decide (p.id = pt.period_id))).filterMap (fun p =>
        if pt.account_id = accountId ∧ (p.number = 0 ∨ p.end_date < date)
            ∧ p.fiscal_year_id = fiscalYearId
        then some pt else none)))

/-- The `dateOperator` of `getComputedAccountBalanceUntilDate`:
`includeMaxDate ? '<=' : '<'`. -/
def dateOperator (includeMaxDate : Bool) (a b : Date) : Bool :=
  if includeMaxDate then decide (a ≤ b) else decide (a < b)

/-- `getComputedAccountBalanceUntilDate`: sums `general_ledger` lines for the
account in the period whose `trans_date` relates to the date by
`dateOperator`.  `balance` is `SUM(debit_equiv - credit_equiv)` over the
enterprise-currency amounts, while `debit`/`credit` sum the native amounts. -/
def getComputedAccountBalanceUntilDate (db : AccountsDb) (accountId : Nat) (date : Date)
    (periodId : Nat) (includeMaxDate : Bool) : BalanceRow :=
  sumBalance (fun g => g.debit) (fun g => g.credit) (fun g => g.debit_equiv - g.credit_equiv)
    (db.general_ledger.filter (fun g =>
      decide (g.account_id = accountId) && dateOperator includeMaxDate g.trans_date date
        && decide (g.period_id = periodId)))

/-- Left-pads a digit string with zeros up to length `n`. -/
def padLeftZeros (s : String) (n : Nat) : String :=
  if s.length ≥ n then s else String.mk (List.replicate (n - s.length) '0') ++ s

/-- JavaScript's `Number.prototype.toFixed(4)` on an exact rational: round to
four decimal places (half away from zero) and render with exactly four
fractional digits. -/
def toFixed4 (q : ℚ) : String :=
  let n : Int := if q < 0 then -⌊-q * 10000 + 1/2⌋ else ⌊q * 10000 + 1/2⌋
  let sign := if n < 0 then "-" else ""
  let m := n.natAbs
  sign ++ toString (m / 10000) ++ "." ++ padLeftZeros (toString (m % 10000)) 4

/-- The result shape of `getOpeningBalanceForDate` (decimal strings fixed to
four places, in the source's field order). -/
structure BalanceStrings where
  balance : String
  credit : String
  debit : String
  deriving Repr, DecidableEq

/-- `getOpeningBalanceForDate`: resolve the date's fiscal year, add the
prior-period aggregate, resolve the date's period, add the in-period running
total, and render all three figures with `toFixed(4)`. -/
def getOpeningBalanceForDate (db : AccountsDb) (accountId : Nat) (date : Date)
    (includeMaxDate : Bool) : Except JErr BalanceStrings := do
  let fiscalYearId ← getFiscalYearForDate db date
  let previousPeriodClosing := getPeriodAccountBalanceUntilDate db accountId date fiscalYearId
  let periodId ← getPeriodForDate db date
  let runningPeriod :=
    getComputedAccountBalanceUntilDate db accountId date periodId includeMaxDate
  .ok
    { balance := toFixed4 (previousPeriodClosing.balance + runningPeriod.balance)
      credit := toFixed4 (previousPeriodClosing.credit + runningPeriod.credit)
      debit := toFixed4 (previousPeriodClosing.debit + runningPeriod.debit) }

/-! ## Embedding of the journal controller

JavaScript journal rows are duck-typed: the same shape flows through loaded
transactions, client-supplied added/changed rows, and rows queued for
insertion or update.  `JRow` therefore carries the always-present columns of
a stored row together with the optional, client-editable fields (absent
fields are `none`; for the stored-row columns the controller only ever reads
the fields modelled here). -/
structure JRow where
  uuid : Nat := 0
  record_uuid : Nat := 0
  /-- The computed `${posted} as posted` column of the combined
  journal/ledger view (`true` when the row was read from `general_ledger`). -/
  posted : Bool := false
  trans_id : String := ""
  trans_date : Option Date := none
  project_id : Nat := 0
  currency_id : Nat := 0
  account_number : Option Nat := none
  account_name : Option String := none
  account_label : Option String := none
  hrEntity : Option String := none
  hrReference : Option String := none
  debit_equiv : Option ℚ := none
  credit_equiv : Option ℚ := none
  account_id : Option Nat := none
  entity_uuid : Option Nat := none
  reference_uuid : Option Nat := none
  debit : Option ℚ := none
  credit : Option ℚ := none
  fiscal_year_id : Option Nat := none
  period_id : Option Nat := none
  deriving Repr, DecidableEq

/-- JavaScript truthiness of an optional numeric field (`undefined` and `0`
are falsy). -/
def truthyQ (v : Option ℚ) : Bool :=
  match v with
  | none => false
  | some x => decide (x ≠ 0)

/-- JavaScript truthiness of an optional numeric identifier field. -/
def truthyN (v : Option Nat) : Bool :=
  match v with
  | none => false
  | some x => decide (x ≠ 0)

/-- JavaScript truthiness of an optional string field (`undefined` and `""`
are falsy). -/
def truthyS (v : Option String) : Bool :=
  match v with
  | none => false
  | some s => decide (s ≠ "")

/-- A row of the append-only `transaction_history` table. -/
structure HistoryRow where
  uuid : Nat
  record_uuid : Nat
  user_id : Nat
  deriving Repr, DecidableEq

/-- The mutable store: the unposted journal, the posted ledger, and the
transaction history. -/
structure Store where
  posting_journal : List JRow
  general_ledger : List JRow
  transaction_history : List HistoryRow
  deriving Repr, DecidableEq

/-- The calendar entry resolved for a date.

Modelled from the spec: `FiscalService.lookupFiscalYearByDate` lives in
`server/controllers/finance/fiscal`, which is not among the provided source
files.  Per the spec (§4.5 steps 4–5 and the row-transform step "stamp
`fiscal_year_id`/`period_id` from the resolved calendar entry for that
date"), the lookup resolves, for a date, a calendar entry carrying both the
fiscal year and its enclosing period: `fiscal_year_id` is the id of the
resolved fiscal year, `id` is the id of the resolved period containing the
date, `locked` is the fiscal year's lock flag, and `label` its display
label — matching the fields the journal controller reads off the resolved
object (`.fiscal_year_id`, `.id`, `.locked`, `.label`). -/
structure FiscalEntry where
  fiscal_year_id : Nat
  id : Nat
  locked : Bool
  label : String
  deriving Repr, DecidableEq

/-- The lookup oracles used by the edit path.  Each returns the rows of the
corresponding SQL query; a `.error` result models a rejected promise.  The
exchange-rate query always returns one row whose `amount` may be `NULL`,
modelled as `0` (both are falsy to the caller). -/
structure Env where
  accountIdsByNumber : Nat → Except JErr (List Nat)
  entityUuidsByText : String → Except JErr (List Nat)
  referenceUuidsByText : String → Except JErr (List Nat)
  exchangeAmount : ℚ → Nat → Option Date → Nat → Except JErr ℚ
  lookupFiscalYearByDate : Option Date → Except JErr FiscalEntry

/-- The row field a scheduled lookup writes back to. -/
inductive FieldTarget where
  | accountId
  | entityUuid
  | referenceUuid
  | debit
  | credit
  deriving Repr, DecidableEq

/-- A scheduled lookup query with its parameters. -/
inductive LookupQ where
  | account (number : Nat)
  | entity (text : String)
  | reference (text : String)
  | exchange (amount : ℚ) (currencyId : Nat) (transDate : Option Date) (projectId : Nat)
  deriving Repr, DecidableEq

/-- One element of the `databaseRequests`/`databaseValues`/`assignments`
triple: the source pushes a request and its write-back assignment together,
so the embedding keeps them as one record. -/
structure ScheduleEntry where
  rowIdx : Nat
  target : FieldTarget
  query : LookupQ
  deriving Repr, DecidableEq

/-- The transaction-level context read from `transactionToEdit[0]`
(`project_id`, `trans_date`, `currency_id`). -/
structure TxContext where
  projectId : Nat
  transactionDate : Option Date
  currencyId : Nat
  deriving Repr, DecidableEq

/-- The date parameter of a row's exchange-rate conversion:
`new Date(row.trans_date ? row.trans_date : transactionDate)`. -/
def exchangeDate (row : JRow) (ctx : TxContext) : Option Date :=
  match row.trans_date with
  | some d => some d
  | none => ctx.transactionDate

/-- The lookups scheduled for one row, in the source's push order: account
number, entity code, reference code, `debit_equiv` conversion,
`credit_equiv` conversion.  Every scheduled lookup reads only the row's
original fields, so the schedule is a function of the unmodified row. -/
def rowEntries (ctx : TxContext) (idx : Nat) (row : JRow) : List ScheduleEntry :=
  (match row.account_number with
    | some n => if n ≠ 0 then [⟨idx, .accountId, .account n⟩] else []
    | none => [])
  ++ (match row.hrEntity with
    | some t => if t ≠ "" then [⟨idx, .entityUuid, .entity t⟩] else []
    | none => [])
  ++ (match row.hrReference with
    | some t => if t ≠ "" then [⟨idx, .referenceUuid, .reference t⟩] else []
    | none => [])
  ++ (match row.debit_equiv with
    | some v =>
      if v ≠ 0 then
        [⟨idx, .debit, .exchange v ctx.currencyId (exchangeDate row ctx) ctx.projectId⟩]
      else []
    | none => [])
  ++ (match row.credit_equiv with
    | some v =>
      if v ≠ 0 then
        [⟨idx, .credit, .exchange v ctx.currencyId (exchangeDate row ctx) ctx.projectId⟩]
      else []
    | none => [])

/-- Deletes the consumed `account_number` (inside its truthiness test, as in
the source). -/
def scrubAccount (row : JRow) : JRow :=
  match row.account_number with
  | some n => if n ≠ 0 then { row with account_number := none } else row
  | none => row

/-- Deletes the untrusted `account_name` display field when truthy. -/
def scrubName (row : JRow) : JRow :=
  if truthyS row.account_name then { row with account_name := none } else row

/-- Deletes the untrusted `account_label` display field when truthy. -/
def scrubLabel (row : JRow) : JRow :=
  if truthyS row.account_label then { row with account_label := none } else row

/-- Deletes the consumed `hrEntity` code when truthy. -/
def scrubEntity (row : JRow) : JRow :=
  match row.hrEntity with
  | some t => if t ≠ "" then { row with hrEntity := none } else row
  | none => row

/-- Deletes the consumed `hrReference` code when truthy. -/
def scrubReference (row : JRow) : JRow :=
  match row.hrReference with
  | some t => if t ≠ "" then { row with hrReference := none } else row
  | none => row

/-- When the row carries its own `trans_date`, normalizes it
(`new Date(...)`, value-preserving here) and stamps
`fiscal_year_id`/`period_id` from the resolved calendar entry. -/
def stampFiscal (fy : FiscalEntry) (row : JRow) : JRow :=
  match row.trans_date with
  | some d =>
    { row with trans_date := some d, fiscal_year_id := some fy.fiscal_year_id,
               period_id := some fy.id }
  | none => row

/-- The synchronous per-row mutations of the scan loop, in the source's
order: the field deletions followed by the `trans_date`
normalization/stamping. -/
def scrubRow (fy : FiscalEntry) (row : JRow) : JRow :=
  stampFiscal fy (scrubReference (scrubEntity (scrubLabel (scrubName (scrubAccount row)))))

/-- One iteration of the `_.each(rows, ...)` loop: a new row without a truthy
account number fails fast with `EDIT_INVALID_ACCOUNT`; otherwise the row is
scrubbed and its lookups scheduled. -/
def scanRow (newRecord : Bool) (ctx : TxContext) (fy : FiscalEntry) (idx : Nat)
    (row : JRow) : Except JErr (JRow × List ScheduleEntry) :=
  if newRecord && !truthyN row.account_number then
    .error (.badRequest "Invalid accounts for journal rows"
      "POSTING_JOURNAL.ERRORS.EDIT_INVALID_ACCOUNT")
  else
    .ok (scrubRow fy row, rowEntries ctx idx row)

/-- The whole scan loop, indexing rows by position.  It stops at the first
failing row, as the JavaScript loop throws synchronously. -/
def scanRows (newRecord : Bool) (ctx : TxContext) (fy : FiscalEntry) :
    Nat → List JRow → Except JErr (List JRow × List ScheduleEntry)
  | _, [] => .ok ([], [])
  | idx, row :: rest =>
    match scanRow newRecord ctx fy idx row with
    | .error err => .error err
    | .ok (row', es) =>
      match scanRows newRecord ctx fy (idx + 1) rest with
      | .error err => .error err
      | .ok (rows', es') => .ok (row' :: rows', es ++ es')

/-- The value a completed lookup writes back. -/
inductive AVal where
  | nat (n : Nat)
  | rat (q : ℚ)
  deriving Repr, DecidableEq

/-- A completed lookup, ready to be written back onto its originating row and
field. -/
structure Assignment where
  rowIdx : Nat
  target : FieldTarget
  value : AVal
  deriving Repr, DecidableEq

/-- Runs one scheduled lookup and its assignment callback: empty account,
entity or reference results raise the corresponding `BadRequest`; a falsy
(zero or `NULL`) converted amount raises `MISSING_EXCHANGE_RATE`; otherwise
the first result row's value is attached to the entry's row and field. -/
def resolveEntry (env : Env) (e : ScheduleEntry) : Except JErr Assignment :=
  match e.query with
  | .account n =>
    match env.accountIdsByNumber n with
    | .error err => .error err
    | .ok [] => .error (.badRequest "Invalid accounts for journal rows"
        "POSTING_JOURNAL.ERRORS.EDIT_INVALID_ACCOUNT")
    | .ok (i :: _) => .ok ⟨e.rowIdx, e.target, .nat i⟩
  | .entity t =>
    match env.entityUuidsByText t with
    | .error err => .error err
    | .ok [] => .error (.badRequest "Invalid entity for journal rows"
        "POSTING_JOURNAL.ERRORS.EDIT_INVALID_ENTITY")
    | .ok (i :: _) => .ok ⟨e.rowIdx, e.target, .nat i⟩
  | .reference t =>
    match env.referenceUuidsByText t with
    | .error err => .error err
    | .ok [] => .error (.badRequest "Invalid reference for journal rows"
        "POSTING_JOURNAL.ERRORS.EDIT_INVALID_REFERENCE")
    | .ok (i :: _) => .ok ⟨e.rowIdx, e.target, .nat i⟩
  | .exchange v c d p =>
    match env.exchangeAmount v c d p with
    | .error err => .error err
    | .ok amount =>
      if amount = 0 then
        .error (.badRequest "Missing or corrupt exchange rate for rows"
          "POSTING_JOURNAL.ERRORS.MISSING_EXCHANGE_RATE")
      else
        .ok ⟨e.rowIdx, e.target, .rat amount⟩

/-- Resolves every scheduled lookup; the batch fails with the first failure
(`q.all` rejects as soon as any promise rejects). -/
def resolveAll (env : Env) : List ScheduleEntry → Except JErr (List Assignment)
  | [] => .ok []
  | e :: rest =>
    match resolveEntry env e with
    | .error err => .error err
    | .ok a =>
      match resolveAll env rest with
      | .error err => .error err
      | .ok tail => .ok (a :: tail)

/-- Writes an assignment's value onto one row
(`_.extend(row, { account_id : ... })`, `row.debit = amount`, etc.). -/
def setField (r : JRow) (t : FieldTarget) (v : AVal) : JRow :=
  match t, v with
  | .accountId, .nat n => { r with account_id := some n }
  | .entityUuid, .nat n => { r with entity_uuid := some n }
  | .referenceUuid, .nat n => { r with reference_uuid := some n }
  | .debit, .rat q => { r with debit := some q }
  | .credit, .rat q => { r with credit := some q }
  | _, _ => r

/-- Updates the row at a given position of the batch. -/
def updRow : List JRow → Nat → FieldTarget → AVal → List JRow
  | [], _, _, _ => []
  | r :: rest, 0, t, v => setField r t v :: rest
  | r :: rest, n + 1, t, v => r :: updRow rest n t v

/-- Applies one completed lookup to the batch. -/
def applyAssign (rows : List JRow) (a : Assignment) : List JRow :=
  updRow rows a.rowIdx a.target a.value

/-- The row-transform pipeline over an explicit transaction context: scan the
rows (scrubbing them and scheduling lookups), resolve every lookup, and write
each result back onto its originating row and field. -/
def transformWithCtx (env : Env) (rows : List JRow) (newRecord : Bool)
    (ctx : TxContext) (fy : FiscalEntry) : Except JErr (List JRow) :=
  match scanRows newRecord ctx fy 0 rows with
  | .error err => .error err
  | .ok (rows', entries) =>
    match resolveAll env entries with
    | .error err => .error err
    | .ok assigns => .ok (assigns.foldl applyAssign rows')

/-- `transformColumns(rows, newRecord, transactionToEdit, setFiscalData)`:
derives the shared project/date/currency context from
`transactionToEdit[0]` and runs the pipeline.  An empty transaction would
crash the source's destructuring of `transactionToEdit[0]`; that is modelled
as a store failure (the branch is unreachable from `editTransaction`). -/
def transformColumns (env : Env) (rows : List JRow) (newRecord : Bool)
    (transactionToEdit : List JRow) (setFiscalData : FiscalEntry) :
    Except JErr (List JRow) :=
  match transactionToEdit with
  | [] => .error .storeFailure
  | first :: _ =>
    transformWithCtx env rows newRecord
      ⟨first.project_id, first.trans_date, first.currency_id⟩ setFiscalData

/-- `getTransactionDate(changedRows, oldRows)`: the changed-row map is turned
into its list of values, appended after the existing rows, and the last
truthy `trans_date` of the combined sequence wins (`filter(...).map(...).pop()`).
Loaded rows always carry a date, client rows only optionally, so the
combined sequence is modelled by each row's optional `trans_date`. -/
def getTransactionDate (changedRows : List (Nat × JRow)) (oldRows : List JRow) :
    Option Date :=
  let changes := changedRows.map Prod.snd
  let rows := oldRows.map (fun r => r.trans_date) ++ changes.map (fun r => r.trans_date)
  (rows.filterMap (fun d => d)).getLast?

/-- The queries an edit queues on the `db.transaction()` object. -/
inductive JQuery where
  | removeRow (uuid : Nat)
  | insertRow (row : JRow)
  | updateRow (fields : JRow) (uuid : Nat)
  | insertHistory (h : HistoryRow)
  deriving Repr, DecidableEq

/-- `UPDATE posting_journal SET ? WHERE uuid = ?`: overwrites the columns
present on the changed row (the optional, client-editable fields of `JRow`);
the always-present storage columns of the stored row are kept. -/
def mergeRow (r fields : JRow) : JRow :=
  { r with
    trans_date := match fields.trans_date with | some d => some d | none => r.trans_date
    account_number :=
      match fields.account_number with | some v => some v | none => r.account_number
    account_name :=
      match fields.account_name with | some v => some v | none => r.account_name
    account_label :=
      match fields.account_label with | some v => some v | none => r.account_label
    hrEntity := match fields.hrEntity with | some v => some v | none => r.hrEntity
    hrReference := match fields.hrReference with | some v => some v | none => r.hrReference
    debit_equiv := match fields.debit_equiv with | some v => some v | none => r.debit_equiv
    credit_equiv :=
      match fields.credit_equiv with | some v => some v | none => r.credit_equiv
    account_id := match fields.account_id with | some v => some v | none => r.account_id
    entity_uuid := match fields.entity_uuid with | some v => some v | none => r.entity_uuid
    reference_uuid :=
      match fields.reference_uuid with | some v => some v | none => r.reference_uuid
    debit := match fields.debit with | some v => some v | none => r.debit
    credit := match fields.credit with | some v => some v | none => r.credit
    fiscal_year_id :=
      match fields.fiscal_year_id with | some v => some v | none => r.fiscal_year_id
    period_id := match fields.period_id with | some v => some v | none => r.period_id }

/-- Applies one queued query to the store. -/
def applyQuery (store : Store) : JQuery → Store
  | .removeRow u =>
    { store with posting_journal := store.posting_journal.filter (fun r => r.uuid ≠ u) }
  | .insertRow r => { store with posting_journal := store.posting_journal ++ [r] }
  | .updateRow fields u =>
    { store with posting_journal :=
        store.posting_journal.map (fun r => if r.uuid = u then mergeRow r fields else r) }
  | .insertHistory h =>
    { store with transaction_history := store.transaction_history ++ [h] }

/-- `transaction.execute()`: applies the whole queue as one atomic unit. -/
def executeQueue (store : Store) (queue : List JQuery) : Store :=
  queue.foldl applyQuery store

/-- Stable insertion of a row into a list sorted by `trans_date` descending. -/
def insertByDateDesc (r : JRow) : List JRow → List JRow
  | [] => [r]
  | s :: rest =>
    if r.trans_date.getD 0 ≥ s.trans_date.getD 0 then r :: s :: rest
    else s :: insertByDateDesc r rest

/-- `ORDER BY trans_date DESC`, as a stable insertion sort. -/
def sortByDateDesc : List JRow → List JRow
  | [] => []
  | r :: rest => insertByDateDesc r (sortByDateDesc rest)

/-- The combined journal/ledger view filtered by `record_uuid`
(`find` with `includeNonPosted`): ledger rows are flagged `posted`, journal
rows unposted, and the union is ordered by `trans_date DESC`. -/
def findRecord (store : Store) (recordUuid : Nat) : List JRow :=
  let posted := (store.general_ledger.filter
    (fun r => decide (r.record_uuid = recordUuid))).map (fun r => { r with posted := true })
  let nonPosted := (store.posting_journal.filter
    (fun r => decide (r.record_uuid = recordUuid))).map (fun r => { r with posted := false })
  sortByDateDesc (posted ++ nonPosted)

/-- `lookupTransaction`: the filtered view, or `NotFound` when it is empty. -/
def lookupTransaction (store : Store) (recordUuid : Nat) : Except JErr (List JRow) :=
  let result := findRecord store recordUuid
  if result.length = 0 then
    .error (.notFound "Could not find a transaction with the given record_uuid.")
  else
    .ok result

/-- An edit request body: `added` rows (an array), `changed` rows (an object
keyed by row uuid, modelled as an association list in iteration order), and
`removed` rows. -/
structure EditBody where
  added : List JRow
  changed : List (Nat × JRow)
  removed : List JRow
  deriving Repr

/-- `editTransaction`: queue removals, load and validate the transaction
(existence, postedness, row count), resolve the effective date's calendar
entry and its lock, transform added and changed rows, queue the inserts,
updates and the history record, execute the queue atomically, and re-load the
transaction as the response.  The returned store is the post-request store;
every failure path returns the response error together with the untouched
input store, because nothing mutates before `transaction.execute()`.
`newHistUuid` stands for the freshly generated `uuid()` of the history row. -/
def editTransaction (env : Env) (store : Store) (recordUuid : Nat) (body : EditBody)
    (userId : Nat) (newHistUuid : Nat) : Store × Except JErr (List JRow) :=
  let removeQueries : List JQuery := body.removed.map (fun r => .removeRow r.uuid)
  match lookupTransaction store recordUuid with
  | .error e => (store, .error e)
  | .ok transactionToEdit =>
    match transactionToEdit with
    | [] => (store, .error .storeFailure)
    | first :: _ =>
      if first.posted then
        (store, .error (.badRequest "Posted transactions cannot be edited."
          "POSTING_JOURNAL.ERRORS.TRANSACTION_ALREADY_POSTED"))
      else
        let allRowsRemoved :=
          body.added.length = 0 ∧ body.removed.length ≥ transactionToEdit.length
        let singleRow :=
          ((body.added.length : Int) - body.removed.length + transactionToEdit.length) = 1
        if allRowsRemoved ∨ singleRow then
          (store, .error (.badRequest "The transaction has too few rows."
            "POSTING_JOURNAL.ERRORS.TRANSACTION_MUST_CONTAIN_ROWS"))
        else
          match env.lookupFiscalYearByDate
              (getTransactionDate body.changed transactionToEdit) with
          | .error e => (store, .error e)
          | .ok fiscalYear =>
            if fiscalYear.locked then
              (store, .error (.badRequest "The fiscal year is closed and locked."
                "POSTING_JOURNAL.ERRORS.CLOSED_FISCAL_YEAR"))
            else
              match transformColumns env body.added true transactionToEdit fiscalYear with
              | .error e => (store, .error e)
              | .ok insertRows =>
                let insertQueries := insertRows.map (fun r => JQuery.insertRow r)
                match transformColumns env (body.changed.map Prod.snd) false
                    transactionToEdit fiscalYear with
                | .error e => (store, .error e)
                | .ok updatedRows =>
                  -- the source mutates the changed-row map in place, so each
                  -- transformed value keeps its key; positional zipping models
                  -- that association
                  let updateQueries :=
                    ((body.changed.map Prod.fst).zip updatedRows).map
                      (fun p => JQuery.updateRow p.2 p.1)
                  let histQuery := JQuery.insertHistory
                    ⟨newHistUuid, first.record_uuid, userId⟩
                  let queue := removeQueries ++ insertQueries ++ updateQueries ++ [histQuery]
                  let store' := executeQueue store queue
                  match lookupTransaction store' recordUuid with
                  | .error e => (store', .error e)
                  | .ok updated => (store', .ok updated)

/-! ## Helper lemmas for the balance aggregator -/

/-- A `sumBalance` fold splits into the three per-column sums. -/
theorem sumBalance_eq {α : Type} (d c b : α → ℚ) (rows : List α) :
    sumBalance d c b rows =
      ⟨(rows.map d).sum, (rows.map c).sum, (rows.map b).sum⟩ := by
  suffices h : ∀ (acc : BalanceRow),
      rows.foldl (fun acc r => ⟨acc.debit + d r, acc.credit + c r, acc.balance + b r⟩) acc
        = ⟨acc.debit + (rows.map d).sum, acc.credit + (rows.map c).sum,
            acc.balance + (rows.map b).sum⟩ by
    unfold sumBalance
    rw [h ⟨0, 0, 0⟩]
    simp
  induction rows with
  | nil => intro acc; simp
  | cons r rest ih =>
    intro acc
    simp only [List.foldl_cons, List.map_cons, List.sum_cons, ih]
    simp [add_assoc]

/-- Summing a difference column-wise. -/
theorem sum_map_sub {α : Type} (f g : α → ℚ) (l : List α) :
    (l.map (fun x => f x - g x)).sum = (l.map f).sum - (l.map g).sum := by
  induction l with
  | nil => simp
  | cons x rest ih => simp [ih]; ring

/-- Filtering on a key column returns the `find?` singleton when the key
column has no duplicates. -/
theorem filter_key_singleton {α β : Type} [DecidableEq β] (f : α → β) (x : β) :
    ∀ l : List α, (l.map f).Nodup →
      l.filter (fun p => decide (f p = x)) =
        (match l.find? (fun p => decide (f p = x)) with
          | some p => [p]
          | none => [])
  | [], _ => rfl
  | a :: l, h => by
    simp only [List.map_cons, List.nodup_cons] at h
    by_cases hx : f a = x
    · have hrest : l.filter (fun p => decide (f p = x)) = [] := by
        rw [List.filter_eq_nil_iff]
        intro b hb
        simp only [decide_eq_true_eq]
        intro hfb
        exact h.1 (by rw [hx, ← hfb]; exact List.mem_map_of_mem f hb)
      simp [List.filter_cons, List.find?, hx, hrest]
    · simp only [List.filter_cons, List.find?, hx, decide_eq_true_eq]
      simp only [decide_eq_false hx, Bool.false_eq_true, if_false, cond_false]
      exact filter_key_singleton f x l h.2

/-- A `flatMap` producing singletons or nothing is a `filter`. -/
theorem flatMap_if_singleton {α : Type} (g : α → List α) (q : α → Bool)
    (hg : ∀ x, g x = if q x then [x] else []) :
    ∀ l : List α, l.flatMap g = l.filter q
  | [] => by simp
  | a :: l => by
    rw [List.flatMap_cons, hg a, flatMap_if_singleton g q hg l, List.filter_cons]
    by_cases hq : q a = true <;> simp [hq]

/-- Concrete database for the period-0 boundary instance: one fiscal year,
its synthetic period 0 plus one real period, a single period-0 aggregate of
`(debit 100, credit 0)` for account 4, and no ledger lines. -/
def dbC7 : AccountsDb where
  fiscal_years := [⟨1, 20240101, 20241231⟩]
  periods := [⟨10, 1, 0, 0, 0⟩, ⟨11, 1, 1, 20240101, 20240131⟩]
  period_totals := [⟨4, 10, 100, 0⟩]
  general_ledger := []

/-- C7: the prior-period component of `getOpeningBalanceForDate` sums
`period_total` rows for the account within the resolved fiscal year exactly
over the periods whose `number` is `0` or whose `end_date` is strictly before
the given date (assuming period ids are unique, as for a primary key); and
for an account whose only aggregate is a period-0 total of
`(debit 100, credit 0)`, the opening balance is
`debit "100.0000", credit "0.0000", balance "100.0000"` even with zero
in-period ledger lines. -/
theorem priorPeriod_component_boundary :
    (∀ (db : AccountsDb) (a : Nat) (d : Date) (fy : Nat),
      (db.periods.map (fun p => p.id)).Nodup →
      getPeriodAccountBalanceUntilDate db a d fy =
        ⟨((db.period_totals.filter (fun pt =>
            decide (pt.account_id = a) &&
            (match db.periods.find? (fun p => decide (p.id = pt.period_id)) with
              | some p => decide ((p.number = 0 ∨ p.end_date < d) ∧ p.fiscal_year_id = fy)
              | none => false))).map (fun pt => pt.debit)).sum,
          ((db.period_totals.filter (fun pt =>
            decide (pt.account_id = a) &&
            (match db.periods.find? (fun p => decide (p.id = pt.period_id)) with
              | some p => decide ((p.number = 0 ∨ p.end_date < d) ∧ p.fiscal_year_id = fy)
              | none => false))).map (fun pt => pt.credit)).sum,
          ((db.period_totals.filter (fun pt =>
            decide (pt.account_id = a) &&
            (match db.periods.find? (fun p => decide (p.id = pt.period_id)) with
              | some p => decide ((p.number = 0 ∨ p.end_date < d) ∧ p.fiscal_year_id = fy)
              | none => false))).map (fun pt => pt.debit - pt.credit)).sum⟩)
    ∧ getOpeningBalanceForDate dbC7 4 20240115 true =
        .ok ⟨"100.0000", "0.0000", "100.0000"⟩ := by
  constructor
  · intro db a d fy hnd
    unfold getPeriodAccountBalanceUntilDate
    have hpt : ∀ pt : PeriodTotalRow,
        (db.periods.filter (fun p => decide (p.id = pt.period_id))).filterMap (fun p =>
          if pt.account_id = a ∧ (p.number = 0 ∨ p.end_date < d) ∧ p.fiscal_year_id = fy
          then some pt else none)
        = if (decide (pt.account_id = a) &&
            (match db.periods.find? (fun p => decide (p.id = pt.period_id)) with
              | some p => decide ((p.number = 0 ∨ p.end_date < d) ∧ p.fiscal_year_id = fy)
              | none => false)) then [pt] else [] := by
      intro pt
      rw [filter_key_singleton (fun p => p.id) pt.period_id db.periods hnd]
      cases hfind : db.periods.find? (fun p => decide (p.id = pt.period_id)) with
      | none => simp
      | some p =>
        by_cases h1 : pt.account_id = a <;>
          by_cases h2 : (p.number = 0 ∨ p.end_date < d) ∧ p.fiscal_year_id = fy <;>
          simp [h1, h2, List.filterMap_cons]
    rw [flatMap_if_singleton _ _ hpt db.period_totals, sumBalance_eq]
  · have h1 : getFiscalYearForDate dbC7 20240115 = .ok 1 := rfl
    have h2 : getPeriodForDate dbC7 20240115 = .ok 11 := rfl
    have h3 : getPeriodAccountBalanceUntilDate dbC7 4 20240115 1 = ⟨100, 0, 100⟩ := by
      simp [getPeriodAccountBalanceUntilDate, sumBalance, dbC7]
    have h4 : getComputedAccountBalanceUntilDate dbC7 4 20240115 11 true = ⟨0, 0, 0⟩ := by
      simp [getComputedAccountBalanceUntilDate, sumBalance, dbC7]
    unfold getOpeningBalanceForDate
    rw [h1]
    simp only [bind, Except.bind, h3]
    rw [h2]
    simp only [bind, Except.bind, h4]
    have hb : toFixed4 (100 : ℚ) = "100.0000" := by unfold toFixed4; norm_num; rfl
    have hc : toFixed4 (0 : ℚ) = "0.0000" := by unfold toFixed4; norm_num; rfl
    simp [hb, hc]

/-- Witness for C7: the prior-period characterization applied to the concrete
period-0 database. -/
theorem priorPeriod_component_boundary_witness :
    (dbC7.periods.map (fun p => p.id)).Nodup ∧
      getPeriodAccountBalanceUntilDate dbC7 4 20240115 1 = ⟨100, 0, 100⟩ :=
  ⟨by decide, by
    rw [priorPeriod_component_boundary.1 dbC7 4 20240115 1 (by decide)]
    simp [dbC7]⟩

/-- C8: the in-period component sums general-ledger lines for the account in
the resolved period, comparing `trans_date` to the given date with `≤` when
`includeMaxDate` is `true` and with `<` when it is `false`. -/
theorem inPeriod_component_date_comparison (db : AccountsDb) (a : Nat) (d : Date) (p : Nat) :
    (getComputedAccountBalanceUntilDate db a d p true =
      ⟨((db.general_ledger.filter (fun g =>
          decide (g.account_id = a) && decide (g.trans_date ≤ d) && decide (g.period_id = p))).map
            (fun g => g.debit)).sum,
        ((db.general_ledger.filter (fun g =>
          decide (g.account_id = a) && decide (g.trans_date ≤ d) && decide (g.period_id = p))).map
            (fun g => g.credit)).sum,
        ((db.general_ledger.filter (fun g =>
          decide (g.account_id = a) && decide (g.trans_date ≤ d) && decide (g.period_id = p))).map
            (fun g => g.debit_equiv - g.credit_equiv)).sum⟩)
    ∧ (getComputedAccountBalanceUntilDate db a d p false =
      ⟨((db.general_ledger.filter (fun g =>
          decide (g.account_id = a) && decide (g.trans_date < d) && decide (g.period_id = p))).map
            (fun g => g.debit)).sum,
        ((db.general_ledger.filter (fun g =>
          decide (g.account_id = a) && decide (g.trans_date < d) && decide (g.period_id = p))).map
            (fun g => g.credit)).sum,
        ((db.general_ledger.filter (fun g =>
          decide (g.account_id = a) && decide (g.trans_date < d) && decide (g.period_id = p))).map
            (fun g => g.debit_equiv - g.credit_equiv)).sum⟩) := by
  constructor <;>
    · unfold getComputedAccountBalanceUntilDate
      rw [sumBalance_eq]
      simp [dateOperator]

/-- Concrete database for the mixed-currency instance: a single ledger line
with native amounts `(debit 100, credit 0)` but enterprise-equivalent amounts
`(debit_equiv 50, credit_equiv 0)`. -/
def dbC10 : AccountsDb where
  fiscal_years := [⟨1, 20240101, 20241231⟩]
  periods := [⟨11, 1, 1, 20240101, 20241231⟩]
  period_totals := []
  general_ledger := [⟨7, 11, 20240110, 100, 0, 50, 0⟩]

/-- C10: the prior-period component's `balance` is `SUM(debit - credit)` over
native-currency period totals (hence always equals its own `debit - credit`),
while the in-period component's `balance` is
`SUM(debit_equiv - credit_equiv)` over enterprise-currency amounts even
though its `debit`/`credit` sum the native amounts; consequently the result
of `getOpeningBalanceForDate` can have `balance ≠ debit - credit`, as on a
ledger line with native `(100, 0)` but equivalents `(50, 0)`. -/
theorem openingBalance_currency_mismatch :
    (∀ (db : AccountsDb) (a : Nat) (d : Date) (fy : Nat),
      (getPeriodAccountBalanceUntilDate db a d fy).balance =
        (getPeriodAccountBalanceUntilDate db a d fy).debit
          - (getPeriodAccountBalanceUntilDate db a d fy).credit)
    ∧ (∀ (db : AccountsDb) (a : Nat) (d : Date) (p : Nat) (inc : Bool),
      getComputedAccountBalanceUntilDate db a d p inc =
        ⟨((db.general_ledger.filter (fun g =>
            decide (g.account_id = a) && dateOperator inc g.trans_date d
              && decide (g.period_id = p))).map (fun g => g.debit)).sum,
          ((db.general_ledger.filter (fun g =>
            decide (g.account_id = a) && dateOperator inc g.trans_date d
              && decide (g.period_id = p))).map (fun g => g.credit)).sum,
          ((db.general_ledger.filter (fun g =>
            decide (g.account_id = a) && dateOperator inc g.trans_date d
              && decide (g.period_id = p))).map (fun g => g.debit_equiv)).sum
          - ((db.general_ledger.filter (fun g =>
            decide (g.account_id = a) && dateOperator inc g.trans_date d
              && decide (g.period_id = p))).map (fun g => g.credit_equiv)).sum⟩)
    ∧ getOpeningBalanceForDate dbC10 7 20240120 true = .ok ⟨"50.0000", "0.0000", "100.0000"⟩
    ∧ toFixed4 ((100 : ℚ) - 0) ≠ "50.0000" := by
  refine ⟨?_, ?_, ?_, ?_⟩
  · intro db a d fy
    unfold getPeriodAccountBalanceUntilDate
    rw [sumBalance_eq]
    simp [sum_map_sub]
  · intro db a d p inc
    unfold getComputedAccountBalanceUntilDate
    rw [sumBalance_eq, sum_map_sub]
  · have h1 : getFiscalYearForDate dbC10 20240120 = .ok 1 := rfl
    have h2 : getPeriodForDate dbC10 20240120 = .ok 11 := rfl
    have h3 : getPeriodAccountBalanceUntilDate dbC10 7 20240120 1 = ⟨0, 0, 0⟩ := by
      simp [getPeriodAccountBalanceUntilDate, sumBalance, dbC10]
    have h4 : getComputedAccountBalanceUntilDate dbC10 7 20240120 11 true = ⟨100, 0, 50⟩ := by
      simp [getComputedAccountBalanceUntilDate, sumBalance, dateOperator, dbC10]
    unfold getOpeningBalanceForDate
    rw [h1]
    simp only [bind, Except.bind, h3]
    rw [h2]
    simp only [bind, Except.bind, h4]
    have hb : toFixed4 (50 : ℚ) = "50.0000" := by unfold toFixed4; norm_num; rfl
    have hc : toFixed4 (0 : ℚ) = "0.0000" := by unfold toFixed4; norm_num; rfl
    have hd : toFixed4 (100 : ℚ) = "100.0000" := by unfold toFixed4; norm_num; rfl
    simp [hb, hc, hd]
  · have hd : toFixed4 ((100 : ℚ) - 0) = "100.0000" := by unfold toFixed4; norm_num; rfl
    rw [hd]
    decide

/-! ## Helper lemmas for the row-transform pipeline -/

/-- The key a scheduled lookup or a completed assignment writes to. -/
def entryKey (e : ScheduleEntry) : Nat × FieldTarget := (e.rowIdx, e.target)

/-- The key an assignment writes to. -/
def assignKey (a : Assignment) : Nat × FieldTarget := (a.rowIdx, a.target)

/-- Every lookup scheduled for a row carries that row's index. -/
theorem rowEntries_rowIdx (ctx : TxContext) (i : Nat) (row : JRow) :
    ∀ e ∈ rowEntries ctx i row, e.rowIdx = i := by
  intro e h
  unfold rowEntries at h
  simp only [List.mem_append] at h
  rcases h with ((((h | h) | h) | h) | h) <;> (split at h <;> simp_all)

/-- The lookups scheduled for one row write to pairwise distinct fields. -/
theorem rowEntries_targets_nodup (ctx : TxContext) (i : Nat) (row : JRow) :
    ((rowEntries ctx i row).map (fun e => e.target)).Nodup := by
  unfold rowEntries
  repeat' split
  all_goals simp_all

/-- The write-back keys scheduled for one row are pairwise distinct. -/
theorem rowEntries_keys_nodup (ctx : TxContext) (i : Nat) (row : JRow) :
    ((rowEntries ctx i row).map entryKey).Nodup := by
  have hmap : (rowEntries ctx i row).map entryKey
      = ((rowEntries ctx i row).map (fun e => e.target)).map (fun t => (i, t)) := by
    rw [List.map_map]
    exact List.map_congr_left (fun e he => by
      simp [entryKey, rowEntries_rowIdx ctx i row e he])
  rw [hmap]
  exact (rowEntries_targets_nodup ctx i row).map
    (fun a b hab => by simpa using hab)

/-- Inversion for a successful row scan. -/
theorem scanRow_ok (nr : Bool) (ctx : TxContext) (fy : FiscalEntry) (idx : Nat) (row : JRow)
    (p : JRow × List ScheduleEntry) (h : scanRow nr ctx fy idx row = .ok p) :
    p = (scrubRow fy row, rowEntries ctx idx row) := by
  unfold scanRow at h
  split at h
  · cases h
  · cases h; rfl

/-- A successful scan scrubs each row in place. -/
theorem scanRows_ok_rows (nr : Bool) (ctx : TxContext) (fy : FiscalEntry) :
    ∀ (idx : Nat) (rows rows' : List JRow) (entries : List ScheduleEntry),
      scanRows nr ctx fy idx rows = .ok (rows', entries) →
      rows' = rows.map (scrubRow fy) := by
  intro idx rows
  induction rows generalizing idx with
  | nil => intro rows' entries h; cases h; rfl
  | cons row rest ih =>
    intro rows' entries h
    unfold scanRows at h
    cases h1 : scanRow nr ctx fy idx row with
    | error err => rw [h1] at h; cases h
    | ok p =>
      rw [h1] at h
      obtain rfl := scanRow_ok nr ctx fy idx row p h1
      cases h2 : scanRows nr ctx fy (idx + 1) rest with
      | error err => rw [h2] at h; cases h
      | ok q =>
        rw [h2] at h
        cases h
        simpa using ih (idx + 1) q.1 q.2 h2

/-- Every lookup scheduled by the scan of a row suffix has a row index at or
beyond the starting index. -/
theorem scanRows_entries_rowIdx_ge (nr : Bool) (ctx : TxContext) (fy : FiscalEntry) :
    ∀ (idx : Nat) (rows rows' : List JRow) (entries : List ScheduleEntry),
      scanRows nr ctx fy idx rows = .ok (rows', entries) →
      ∀ e ∈ entries, idx ≤ e.rowIdx := by
  intro idx rows
  induction rows generalizing idx with
  | nil => intro rows' entries h e he; cases h; cases he
  | cons row rest ih =>
    intro rows' entries h e he
    unfold scanRows at h
    cases h1 : scanRow nr ctx fy idx row with
    | error err => rw [h1] at h; cases h
    | ok p =>
      rw [h1] at h
      obtain rfl := scanRow_ok nr ctx fy idx row p h1
      cases h2 : scanRows nr ctx fy (idx + 1) rest with
      | error err => rw [h2] at h; cases h
      | ok q =>
        rw [h2] at h
        cases h
        rcases List.mem_append.mp he with hl | hr
        · exact le_of_eq (rowEntries_rowIdx ctx idx row e hl).symm
        · exact Nat.le_of_succ_le (ih (idx + 1) q.1 q.2 h2 e hr)

/-- Every lookup scheduled by a successful scan originates from the row at
its own index. -/
theorem scanRows_mem_entries (nr : Bool) (ctx : TxContext) (fy : FiscalEntry) :
    ∀ (idx : Nat) (rows rows' : List JRow) (entries : List ScheduleEntry),
      scanRows nr ctx fy idx rows = .ok (rows', entries) →
      ∀ e ∈ entries, ∃ i row, rows[i]? = some row ∧ e ∈ rowEntries ctx (idx + i) row := by
  intro idx rows
  induction rows generalizing idx with
  | nil => intro rows' entries h e he; cases h; cases he
  | cons row rest ih =>
    intro rows' entries h e he
    unfold scanRows at h
    cases h1 : scanRow nr ctx fy idx row with
    | error err => rw [h1] at h; cases h
    | ok p =>
      rw [h1] at h
      obtain rfl := scanRow_ok nr ctx fy idx row p h1
      cases h2 : scanRows nr ctx fy (idx + 1) rest with
      | error err => rw [h2] at h; cases h
      | ok q =>
        rw [h2] at h
        cases h
        rcases List.mem_append.mp he with hl | hr
        · exact ⟨0, row, by simp, by simpa using hl⟩
        · obtain ⟨i, row', hi, hmem⟩ := ih (idx + 1) q.1 q.2 h2 e hr
          exact ⟨i + 1, row', by simpa using hi, by
            have : idx + 1 + i = idx + (i + 1) := by omega
            rwa [this] at hmem⟩

/-- Conversely, every lookup of every scanned row is scheduled. -/
theorem scanRows_entries_of_mem (nr : Bool) (ctx : TxContext) (fy : FiscalEntry) :
    ∀ (idx : Nat) (rows rows' : List JRow) (entries : List ScheduleEntry),
      scanRows nr ctx fy idx rows = .ok (rows', entries) →
      ∀ (i : Nat) (row : JRow), rows[i]? = some row →
        ∀ e ∈ rowEntries ctx (idx + i) row, e ∈ entries := by
  intro idx rows
  induction rows generalizing idx with
  | nil => intro rows' entries h i row hi; cases h; cases hi
  | cons row₀ rest ih =>
    intro rows' entries h i row hi e he
    unfold scanRows at h
    cases h1 : scanRow nr ctx fy idx row₀ with
    | error err => rw [h1] at h; cases h
    | ok p =>
      rw [h1] at h
      obtain rfl := scanRow_ok nr ctx fy idx row₀ p h1
      cases h2 : scanRows nr ctx fy (idx + 1) rest with
      | error err => rw [h2] at h; cases h
      | ok q =>
        rw [h2] at h
        cases h
        rw [List.mem_append]
        cases i with
        | zero =>
          left
          simp only [List.getElem?_cons_zero, Option.some.injEq] at hi
          subst hi
          simpa using he
        | succ j =>
          right
          simp only [List.getElem?_cons_succ] at hi
          have : idx + (j + 1) = idx + 1 + j := by omega
          rw [this] at he
          exact ih (idx + 1) q.1 q.2 h2 j row hi e he

/-- The write-back keys of all lookups scheduled by a successful scan are
pairwise distinct: distinct rows have distinct indices, and one row's
lookups write to distinct fields. -/
theorem scanRows_keys_nodup (nr : Bool) (ctx : TxContext) (fy : FiscalEntry) :
    ∀ (idx : Nat) (rows rows' : List JRow) (entries : List ScheduleEntry),
      scanRows nr ctx fy idx rows = .ok (rows', entries) →
      (entries.map entryKey).Nodup := by
  intro idx rows
  induction rows generalizing idx with
  | nil => intro rows' entries h; cases h; simp
  | cons row rest ih =>
    intro rows' entries h
    unfold scanRows at h
    cases h1 : scanRow nr ctx fy idx row with
    | error err => rw [h1] at h; cases h
    | ok p =>
      rw [h1] at h
      obtain rfl := scanRow_ok nr ctx fy idx row p h1
      cases h2 : scanRows nr ctx fy (idx + 1) rest with
      | error err => rw [h2] at h; cases h
      | ok q =>
        rw [h2] at h
        cases h
        rw [List.map_append, List.nodup_append]
        refine ⟨rowEntries_keys_nodup ctx idx row, ih (idx + 1) q.1 q.2 h2, ?_⟩
        intro k hk hk'
        obtain ⟨e, he, rfl⟩ := List.mem_map.mp hk
        obtain ⟨e', he', hke⟩ := List.mem_map.mp hk'
        have h1e : e.rowIdx = idx := rowEntries_rowIdx ctx idx row e he
        have h2e : idx + 1 ≤ e'.rowIdx :=
          scanRows_entries_rowIdx_ge nr ctx fy (idx + 1) rest q.1 q.2 h2 e' he'
        have h3 : e'.rowIdx = e.rowIdx := congrArg Prod.fst hke
        omega

/-- Writes to distinct fields of one row commute. -/
theorem setField_comm (r : JRow) (t t' : FieldTarget) (v v' : AVal) (h : t ≠ t') :
    setField (setField r t v) t' v' = setField (setField r t' v') t v := by
  cases t <;> cases t' <;>
    first
      | exact absurd rfl h
      | (cases v <;> cases v' <;> rfl)

/-- `setField` never touches `trans_date`, `fiscal_year_id` or `period_id`. -/
theorem setField_preserves_dates (r : JRow) (t : FieldTarget) (v : AVal) :
    (setField r t v).trans_date = r.trans_date
      ∧ (setField r t v).fiscal_year_id = r.fiscal_year_id
      ∧ (setField r t v).period_id = r.period_id := by
  cases t <;> cases v <;> exact ⟨rfl, rfl, rfl⟩

/-- Reading a field of a row through the write-back target view. -/
def fieldValue (r : JRow) : FieldTarget → Option AVal
  | .accountId => r.account_id.map .nat
  | .entityUuid => r.entity_uuid.map .nat
  | .referenceUuid => r.reference_uuid.map .nat
  | .debit => r.debit.map .rat
  | .credit => r.credit.map .rat

/-- An assignment value is well-typed for its target when identifier targets
carry identifiers and amount targets carry amounts (every assignment built by
`resolveEntry` on a scheduled entry is). -/
def typedFor (t : FieldTarget) (v : AVal) : Prop :=
  match t, v with
  | .accountId, .nat _ => True
  | .entityUuid, .nat _ => True
  | .referenceUuid, .nat _ => True
  | .debit, .rat _ => True
  | .credit, .rat _ => True
  | _, _ => False

/-- A well-typed write is visible through `fieldValue`. -/
theorem fieldValue_setField (r : JRow) (t : FieldTarget) (v : AVal) (h : typedFor t v) :
    fieldValue (setField r t v) t = some v := by
  cases t <;> cases v <;> simp [typedFor] at h ⊢ <;> simp [setField, fieldValue]

/-- A write to one field leaves the other fields' values unchanged. -/
theorem fieldValue_setField_ne (r : JRow) (t t' : FieldTarget) (v : AVal) (h : t ≠ t') :
    fieldValue (setField r t v) t' = fieldValue r t' := by
  cases t <;> cases t' <;>
    first
      | exact absurd rfl h
      | (cases v <;> rfl)

/-- `updRow` keeps the batch size. -/
theorem updRow_length (rows : List JRow) (i : Nat) (t : FieldTarget) (v : AVal) :
    (updRow rows i t v).length = rows.length := by
  induction rows generalizing i with
  | nil => rfl
  | cons r rest ih => cases i <;> simp [updRow, ih]

/-- `updRow` only touches the addressed position. -/
theorem updRow_getElem_ne (rows : List JRow) (i j : Nat) (t : FieldTarget) (v : AVal)
    (h : i ≠ j) : (updRow rows i t v)[j]? = rows[j]? := by
  induction rows generalizing i j with
  | nil => rfl
  | cons r rest ih =>
    cases i with
    | zero => cases j with
      | zero => exact absurd rfl h
      | succ j' => simp [updRow]
    | succ i' => cases j with
      | zero => simp [updRow]
      | succ j' => simpa [updRow] using ih i' j' (by omega)

/-- `updRow` writes through to the addressed position. -/
theorem updRow_getElem_eq (rows : List JRow) (i : Nat) (t : FieldTarget) (v : AVal)
    (row : JRow) (h : rows[i]? = some row) :
    (updRow rows i t v)[i]? = some (setField row t v) := by
  induction rows generalizing i with
  | nil => cases h
  | cons r rest ih =>
    cases i with
    | zero => simp_all [updRow]
    | succ i' => simpa [updRow] using ih i' (by simpa using h)

/-- Updates at distinct positions, or to distinct fields of one row,
commute. -/
theorem updRow_comm (rows : List JRow) (i j : Nat) (t t' : FieldTarget) (v v' : AVal)
    (h : i ≠ j ∨ t ≠ t') :
    updRow (updRow rows i t v) j t' v' = updRow (updRow rows j t' v') i t v := by
  induction rows generalizing i j with
  | nil => rfl
  | cons r rest ih =>
    cases i with
    | zero => cases j with
      | zero =>
        have ht : t ≠ t' := h.resolve_left (fun hc => hc rfl)
        simp [updRow, setField_comm r t t' v v' ht]
      | succ j' => simp [updRow]
    | succ i' => cases j with
      | zero => simp [updRow]
      | succ j' =>
        have : i' ≠ j' ∨ t ≠ t' := h.imp (fun hne => by omega) id
        simp [updRow, ih i' j' this]

/-- Applications of completed lookups with distinct write-back keys
commute. -/
theorem applyAssign_comm (rows : List JRow) (a b : Assignment)
    (h : assignKey a ≠ assignKey b) :
    applyAssign (applyAssign rows a) b = applyAssign (applyAssign rows b) a := by
  unfold applyAssign
  apply updRow_comm
  by_cases hi : a.rowIdx = b.rowIdx
  · right
    intro ht
    exact h (by simp [assignKey, hi, ht])
  · left; exact hi

/-- Applying a batch of completed lookups in any settlement order produces
the same rows, provided their write-back keys are pairwise distinct. -/
theorem foldl_applyAssign_perm (assigns assigns' : List Assignment)
    (hperm : assigns.Perm assigns')
    (hnd : (assigns.map assignKey).Nodup) (rows : List JRow) :
    assigns'.foldl applyAssign rows = assigns.foldl applyAssign rows := by
  refine (hperm.foldl_eq' ?_ rows).symm
  intro x hx y hy z
  by_cases hxy : x = y
  · rw [hxy]
  · exact applyAssign_comm z x y
      (fun hk => hxy (List.inj_on_of_nodup_map hnd hx hy hk))

/-- Applying lookups keeps the batch size. -/
theorem foldl_applyAssign_length (assigns : List Assignment) (rows : List JRow) :
    (assigns.foldl applyAssign rows).length = rows.length := by
  induction assigns generalizing rows with
  | nil => rfl
  | cons a rest ih => simp [List.foldl_cons, ih, applyAssign, updRow_length]

/-- Applying lookups never touches any row's `trans_date`, `fiscal_year_id`
or `period_id`. -/
theorem foldl_applyAssign_preserves_dates (assigns : List Assignment) (rows : List JRow)
    (i : Nat) :
    ((assigns.foldl applyAssign rows)[i]?.map (fun r => r.trans_date)
        = rows[i]?.map (fun r => r.trans_date))
      ∧ ((assigns.foldl applyAssign rows)[i]?.map (fun r => r.fiscal_year_id)
        = rows[i]?.map (fun r => r.fiscal_year_id))
      ∧ ((assigns.foldl applyAssign rows)[i]?.map (fun r => r.period_id)
        = rows[i]?.map (fun r => r.period_id)) := by
  induction assigns generalizing rows with
  | nil => exact ⟨rfl, rfl, rfl⟩
  | cons a rest ih =>
    rw [List.foldl_cons]
    refine ⟨((ih (applyAssign rows a)).1).trans ?_,
      ((ih (applyAssign rows a)).2.1).trans ?_, ((ih (applyAssign rows a)).2.2).trans ?_⟩ <;>
    · unfold applyAssign
      by_cases hij : a.rowIdx = i
      · subst hij
        cases hrow : rows[a.rowIdx]? with
        | none =>
          rw [List.getElem?_eq_none_iff] at hrow
          rw [List.getElem?_eq_none_iff.mpr (by rwa [updRow_length])]
        | some row =>
          simp [updRow_getElem_eq rows a.rowIdx a.target a.value row hrow, hrow,
            setField_preserves_dates]
      · rw [updRow_getElem_ne rows a.rowIdx i a.target a.value hij]

/-- A successful batch resolution pairs every scheduled lookup, in order,
with its own completed assignment. -/
theorem resolveAll_ok_forall₂ (env : Env) :
    ∀ (l : List ScheduleEntry) (tail : List Assignment), resolveAll env l = .ok tail →
      List.Forall₂ (fun e a => resolveEntry env e = .ok a) l tail := by
  intro l
  induction l with
  | nil => intro tail h; cases h; exact List.Forall₂.nil
  | cons e rest ih =>
    intro tail h
    unfold resolveAll at h
    cases h1 : resolveEntry env e with
    | error err => rw [h1] at h; cases h
    | ok a =>
      rw [h1] at h
      cases h2 : resolveAll env rest with
      | error err => rw [h2] at h; cases h
      | ok tl =>
        rw [h2] at h
        cases h
        exact List.Forall₂.cons h1 (ih tl h2)

/-- If any single scheduled lookup fails, the whole batch resolution fails. -/
theorem resolveAll_error_of_mem (env : Env) :
    ∀ (l : List ScheduleEntry), (∃ e ∈ l, isOkE (resolveEntry env e) = false) →
      isOkE (resolveAll env l) = false := by
  intro l
  induction l with
  | nil => rintro ⟨e, he, _⟩; cases he
  | cons e rest ih =>
    rintro ⟨e', he', herr⟩
    unfold resolveAll
    cases h1 : resolveEntry env e with
    | error err => rfl
    | ok a =>
      cases h2 : resolveAll env rest with
      | error err => rfl
      | ok tl =>
        exfalso
        rcases List.mem_cons.mp he' with rfl | hmem
        · rw [h1] at herr; cases herr
        · have := ih ⟨e', hmem, herr⟩
          rw [h2] at this
          cases this

/-- If every failing lookup of a batch fails with one fixed error, and at
least one fails, the batch resolution fails with exactly that error. -/
theorem resolveAll_error_uniform (env : Env) (err₀ : JErr) :
    ∀ (l : List ScheduleEntry),
      (∀ e ∈ l, isOkE (resolveEntry env e) = false → resolveEntry env e = .error err₀) →
      (∃ e ∈ l, isOkE (resolveEntry env e) = false) →
      resolveAll env l = .error err₀ := by
  intro l
  induction l with
  | nil => rintro _ ⟨e, he, _⟩; cases he
  | cons e rest ih =>
    rintro hall ⟨e', he', herr⟩
    unfold resolveAll
    cases h1 : resolveEntry env e with
    | error err =>
      have : resolveEntry env e = .error err₀ :=
        hall e (List.mem_cons_self e rest) (by rw [h1]; rfl)
      rw [h1] at this
      cases this
      rfl
    | ok a =>
      have hrest : ∃ x ∈ rest, isOkE (resolveEntry env x) = false := by
        rcases List.mem_cons.mp he' with rfl | hmem
        · rw [h1] at herr; cases herr
        · exact ⟨e', hmem, herr⟩
      rw [ih (fun x hx => hall x (List.mem_cons_of_mem e hx)) hrest]

/-- A completed lookup writes back to exactly the row index and field of the
scheduled lookup it came from. -/
theorem resolveEntry_ok_key (env : Env) (e : ScheduleEntry) (a : Assignment)
    (h : resolveEntry env e = .ok a) : a.rowIdx = e.rowIdx ∧ a.target = e.target := by
  unfold resolveEntry at h
  cases hq : e.query <;> rw [hq] at h <;> (repeat' split at h) <;>
    first
      | (cases h; exact ⟨rfl, rfl⟩)
      | simp_all

/-- Applying lookups none of which writes to the key `(i, t)` leaves the
value of field `t` of row `i` unchanged. -/
theorem foldl_applyAssign_preserves_key (i : Nat) (t : FieldTarget) :
    ∀ (rest : List Assignment), (∀ c ∈ rest, assignKey c ≠ (i, t)) → ∀ (rows : List JRow),
      ((rest.foldl applyAssign rows)[i]?).map (fun r => fieldValue r t)
        = (rows[i]?).map (fun r => fieldValue r t) := by
  intro rest
  induction rest with
  | nil => intro _ rows; rfl
  | cons c rest ih =>
    intro hnk rows
    rw [List.foldl_cons]
    refine (ih (fun c' hc' => hnk c' (List.mem_cons_of_mem _ hc')) _).trans ?_
    unfold applyAssign
    by_cases hic : c.rowIdx = i
    · subst hic
      cases hrow : rows[c.rowIdx]? with
      | none =>
        rw [List.getElem?_eq_none_iff] at hrow
        rw [List.getElem?_eq_none_iff.mpr (by rwa [updRow_length])]
      | some r =>
        have ht : c.target ≠ t := by
          intro hteq
          exact hnk c (List.mem_cons_self c rest) (by simp [assignKey, hteq])
        simp [updRow_getElem_eq rows c.rowIdx c.target c.value r hrow, hrow,
          fieldValue_setField_ne r c.target t c.value ht]
    · rw [updRow_getElem_ne rows c.rowIdx i c.target c.value hic]

/-- When the batch of completed lookups has pairwise distinct write-back
keys, each lookup's value is what the final batch shows at its row and
field. -/
theorem foldl_applyAssign_fieldValue (a : Assignment) :
    ∀ (assigns : List Assignment), a ∈ assigns → (assigns.map assignKey).Nodup →
      typedFor a.target a.value → ∀ (rows : List JRow) (row : JRow),
      rows[a.rowIdx]? = some row →
      ∃ row', (assigns.foldl applyAssign rows)[a.rowIdx]? = some row'
        ∧ fieldValue row' a.target = some a.value := by
  intro assigns
  induction assigns with
  | nil => intro ha; cases ha
  | cons b rest ih =>
    intro ha hnd htyped rows row hrow
    rw [List.foldl_cons]
    rcases List.mem_cons.mp ha with rfl | hmem
    · have hnk : ∀ c ∈ rest, assignKey c ≠ (a.rowIdx, a.target) := by
        intro c hc hkey
        exact (List.nodup_cons.mp hnd).1
          (by rw [show ((a.rowIdx, a.target) : Nat × FieldTarget) = assignKey a from rfl] at hkey
              exact hkey ▸ List.mem_map_of_mem assignKey hc)
      have happ : (applyAssign rows a)[a.rowIdx]? = some (setField row a.target a.value) :=
        updRow_getElem_eq rows a.rowIdx a.target a.value row hrow
      have hpres := foldl_applyAssign_preserves_key a.rowIdx a.target rest hnk
        (applyAssign rows a)
      rw [happ] at hpres
      cases hfin : (rest.foldl applyAssign (applyAssign rows a))[a.rowIdx]? with
      | none => rw [hfin] at hpres; cases hpres
      | some row' =>
        rw [hfin] at hpres
        refine ⟨row', rfl, ?_⟩
        have h2 : fieldValue row' a.target
            = fieldValue (setField row a.target a.value) a.target :=
          Option.some.inj hpres
        rw [h2, fieldValue_setField row a.target a.value htyped]
    · have hlen : a.rowIdx < (applyAssign rows b).length := by
        have : a.rowIdx < rows.length := by
          obtain ⟨hlt, -⟩ := List.getElem?_eq_some_iff.mp hrow
          exact hlt
        unfold applyAssign
        rwa [updRow_length]
      cases hrow' : (applyAssign rows b)[a.rowIdx]? with
      | none =>
        rw [List.getElem?_eq_none_iff] at hrow'
        omega
      | some row'' =>
        exact ih hmem (List.nodup_cons.mp hnd).2 htyped (applyAssign rows b) row'' hrow'

/-- Positionally paired assignments write to exactly the scheduled keys. -/
theorem resolveAll_keys_eq (env : Env) :
    ∀ (l : List ScheduleEntry) (tl : List Assignment),
      List.Forall₂ (fun e a => resolveEntry env e = .ok a) l tl →
      tl.map assignKey = l.map entryKey := by
  intro l tl h
  induction h with
  | nil => rfl
  | cons h₁ _ ih =>
    rw [List.map_cons, List.map_cons, ih]
    obtain ⟨hr, ht⟩ := resolveEntry_ok_key _ _ _ h₁
    simp [assignKey, entryKey, hr, ht]

/-- C9: for every batch processed by the transform pipeline, each resolved
lookup result is attached to exactly the row index and field of the
scheduled lookup that originated it (the batch pairs scheduled lookups and
completed assignments positionally), and applying the completed assignments
in any settlement order — any permutation of the submission order — yields
the same final rows. -/
theorem transform_lookup_row_correspondence (env : Env) (rows : List JRow)
    (newRecord : Bool) (ctx : TxContext) (fy : FiscalEntry)
    (rows' : List JRow) (entries : List ScheduleEntry) (assigns : List Assignment)
    (hscan : scanRows newRecord ctx fy 0 rows = .ok (rows', entries))
    (hres : resolveAll env entries = .ok assigns) :
    List.Forall₂ (fun e a => resolveEntry env e = .ok a
        ∧ a.rowIdx = e.rowIdx ∧ a.target = e.target) entries assigns
    ∧ transformWithCtx env rows newRecord ctx fy = .ok (assigns.foldl applyAssign rows')
    ∧ ∀ assigns' : List Assignment, assigns.Perm assigns' →
        assigns'.foldl applyAssign rows' = assigns.foldl applyAssign rows' := by
  have hf₂ := resolveAll_ok_forall₂ env entries assigns hres
  refine ⟨?_, ?_, ?_⟩
  · exact hf₂.imp (fun e a h => ⟨h, resolveEntry_ok_key env e a h⟩)
  · unfold transformWithCtx
    rw [hscan]
    dsimp only
    rw [hres]
  · intro assigns' hperm
    have hknd : (assigns.map assignKey).Nodup := by
      rw [resolveAll_keys_eq env entries assigns hf₂]
      exact scanRows_keys_nodup newRecord ctx fy 0 rows rows' entries hscan
    exact foldl_applyAssign_perm assigns assigns' hperm hknd rows'

/-- Concrete transform context for the pipeline witnesses. -/
def ctx9 : TxContext := ⟨1, some 20240101, 1⟩

/-- Concrete resolved calendar entry for the pipeline witnesses. -/
def fy9 : FiscalEntry := ⟨3, 30, false, "FY 2024"⟩

/-- Concrete lookup oracles: account number `n` resolves to id `n + 1000`. -/
def env9 : Env where
  accountIdsByNumber := fun n => .ok [n + 1000]
  entityUuidsByText := fun _ => .ok []
  referenceUuidsByText := fun _ => .ok []
  exchangeAmount := fun _ _ _ _ => .ok 1
  lookupFiscalYearByDate := fun _ => .ok fy9

/-- Two new rows with distinct account codes. -/
def rows9 : List JRow := [{ account_number := some 101 }, { account_number := some 202 }]

/-- The lookups the scan schedules for `rows9`. -/
def entries9 : List ScheduleEntry :=
  [⟨0, .accountId, .account 101⟩, ⟨1, .accountId, .account 202⟩]

/-- The completed assignments for `entries9` under `env9`. -/
def assigns9 : List Assignment :=
  [⟨0, .accountId, .nat 1101⟩, ⟨1, .accountId, .nat 1202⟩]

/-- Witness for C9: two account lookups settling in reversed order still
produce the same transformed rows. -/
theorem transform_lookup_row_correspondence_witness :
    scanRows true ctx9 fy9 0 rows9 = .ok (rows9.map (scrubRow fy9), entries9)
    ∧ resolveAll env9 entries9 = .ok assigns9
    ∧ ([⟨1, .accountId, .nat 1202⟩, ⟨0, .accountId, .nat 1101⟩] : List Assignment).foldl
        applyAssign (rows9.map (scrubRow fy9))
      = assigns9.foldl applyAssign (rows9.map (scrubRow fy9)) :=
  ⟨rfl, rfl,
    (transform_lookup_row_correspondence env9 rows9 true ctx9 fy9 (rows9.map (scrubRow fy9))
      entries9 assigns9 rfl rfl).2.2
      [⟨1, .accountId, .nat 1202⟩, ⟨0, .accountId, .nat 1101⟩]
      (by decide)⟩

/-- The field deletions never touch `trans_date`. -/
theorem scrubs_trans_date (row : JRow) :
    (scrubReference (scrubEntity (scrubLabel (scrubName (scrubAccount row))))).trans_date
      = row.trans_date := by
  unfold scrubReference scrubEntity scrubLabel scrubName scrubAccount
  repeat' split
  all_goals rfl

/-- Scrubbing keeps the row's (normalized) `trans_date` value. -/
theorem scrubRow_trans_date (fy : FiscalEntry) (row : JRow) :
    (scrubRow fy row).trans_date = row.trans_date := by
  unfold scrubRow stampFiscal
  split
  · next heq => rw [← scrubs_trans_date row, heq]
  · exact scrubs_trans_date row

/-- A row carrying its own `trans_date` is stamped with the calendar entry's
fiscal year id and period id. -/
theorem scrubRow_stamps (fy : FiscalEntry) (row : JRow) (h : row.trans_date.isSome) :
    (scrubRow fy row).fiscal_year_id = some fy.fiscal_year_id
      ∧ (scrubRow fy row).period_id = some fy.id := by
  unfold scrubRow stampFiscal
  split
  · exact ⟨rfl, rfl⟩
  · next heq =>
    rw [scrubs_trans_date row] at heq
    rw [heq] at h
    cases h

/-- C3: for every row processed by the transform pipeline that supplies its
own `trans_date`, the pipeline keeps the row's normalized date value and sets
the row's `fiscal_year_id` to the id of the resolved fiscal year and the
row's `period_id` to the id of the resolved period of the calendar entry the
caller resolved for the edit's effective date (date parsing is modelled as
value-preserving on the date encoding). -/
theorem transform_stamps_fiscal (env : Env) (rows : List JRow) (newRecord : Bool)
    (ctx : TxContext) (fy : FiscalEntry) (out : List JRow) (i : Nat) (row : JRow)
    (hok : transformWithCtx env rows newRecord ctx fy = .ok out)
    (hrow : rows[i]? = some row) (hdate : row.trans_date.isSome) :
    ∃ row', out[i]? = some row' ∧ row'.trans_date = row.trans_date
      ∧ row'.fiscal_year_id = some fy.fiscal_year_id ∧ row'.period_id = some fy.id := by
  unfold transformWithCtx at hok
  cases hscan : scanRows newRecord ctx fy 0 rows with
  | error e => rw [hscan] at hok; cases hok
  | ok p =>
    rw [hscan] at hok
    dsimp only at hok
    cases hres : resolveAll env p.2 with
    | error e => rw [hres] at hok; cases hok
    | ok assigns =>
      rw [hres] at hok
      cases hok
      have hrows' : p.1 = rows.map (scrubRow fy) :=
        scanRows_ok_rows newRecord ctx fy 0 rows p.1 p.2 hscan
      have hp1 : p.1[i]? = some (scrubRow fy row) := by
        rw [hrows', List.getElem?_map, hrow]
        rfl
      have hpres := foldl_applyAssign_preserves_dates assigns p.1 i
      cases hfin : (assigns.foldl applyAssign p.1)[i]? with
      | none =>
        rw [hfin, hp1] at hpres
        cases hpres.1
      | some row' =>
        rw [hfin, hp1] at hpres
        refine ⟨row', rfl, ?_, ?_, ?_⟩
        · have h1 : row'.trans_date = (scrubRow fy row).trans_date :=
            Option.some.inj hpres.1
          rw [h1, scrubRow_trans_date]
        · have h1 : row'.fiscal_year_id = (scrubRow fy row).fiscal_year_id :=
            Option.some.inj hpres.2.1
          rw [h1, (scrubRow_stamps fy row hdate).1]
        · have h1 : row'.period_id = (scrubRow fy row).period_id :=
            Option.some.inj hpres.2.2
          rw [h1, (scrubRow_stamps fy row hdate).2]

/-- A changed row supplying only a new `trans_date`. -/
def rowC3 : JRow := { trans_date := some 20240215 }

/-- Witness for C3: transforming the dated row stamps the calendar entry's
fiscal year 3 and period 30. -/
theorem transform_stamps_fiscal_witness :
    transformWithCtx env9 [rowC3] false ctx9 fy9
        = .ok [{ rowC3 with fiscal_year_id := some 3, period_id := some 30 }]
      ∧ ∃ row', ([{ rowC3 with fiscal_year_id := some 3, period_id := some 30 }] :
          List JRow)[0]? = some row'
        ∧ row'.trans_date = rowC3.trans_date
        ∧ row'.fiscal_year_id = some fy9.fiscal_year_id ∧ row'.period_id = some fy9.id :=
  ⟨rfl, transform_stamps_fiscal env9 [rowC3] false ctx9 fy9
    [{ rowC3 with fiscal_year_id := some 3, period_id := some 30 }] 0 rowC3
    rfl rfl rfl⟩

/-- A successful transaction lookup never returns an empty row list. -/
theorem lookupTransaction_ok_ne_nil (store : Store) (recordUuid : Nat)
    (rows : List JRow) (h : lookupTransaction store recordUuid = .ok rows) :
    rows ≠ [] := by
  simp only [lookupTransaction] at h
  split at h
  · cases h
  · next hlen =>
    cases h
    intro hnil
    rw [hnil] at hlen
    exact hlen rfl

/-- C5: when the loaded rows of a transaction all report `posted = true`,
every edit request against it fails with `BadRequest`
(`TRANSACTION_ALREADY_POSTED`) regardless of the request body, and the store
is left untouched (no row mutation, no history record). -/
theorem editTransaction_posted_rejected (env : Env) (store : Store) (recordUuid : Nat)
    (body : EditBody) (userId histUuid : Nat) (rows : List JRow)
    (hlook : lookupTransaction store recordUuid = .ok rows)
    (hposted : ∀ r ∈ rows, r.posted = true) :
    editTransaction env store recordUuid body userId histUuid
      = (store, .error (.badRequest "Posted transactions cannot be edited."
          "POSTING_JOURNAL.ERRORS.TRANSACTION_ALREADY_POSTED")) := by
  unfold editTransaction
  rw [hlook]
  cases rows with
  | nil => exact absurd rfl (lookupTransaction_ok_ne_nil store recordUuid [] hlook)
  | cons first rest =>
    dsimp only
    rw [hposted first (List.mem_cons_self first rest)]
    rfl

/-- A stored, unposted journal row of the two-row transaction `record 1`. -/
def txRow1 : JRow :=
  { uuid := 11, record_uuid := 1, trans_id := "TRX1", trans_date := some 20240101,
    project_id := 1, currency_id := 1, account_id := some 5 }

/-- The second stored row of the transaction. -/
def txRow2 : JRow := { txRow1 with uuid := 12 }

/-- A store holding the two-row transaction, unposted. -/
def storeU : Store :=
  { posting_journal := [txRow1, txRow2], general_ledger := [], transaction_history := [] }

/-- A store holding the two-row transaction in the general ledger (posted). -/
def storeP : Store :=
  { posting_journal := [], general_ledger := [txRow1, txRow2], transaction_history := [] }

/-- An edit body that only removes the first row. -/
def bodyRemoveOne : EditBody := { added := [], changed := [], removed := [{ uuid := 11 }] }

/-- Witness for C5: editing the posted transaction is rejected with
`TRANSACTION_ALREADY_POSTED` and the store is unchanged. -/
theorem editTransaction_posted_rejected_witness :
    lookupTransaction storeP 1
        = .ok [{ txRow1 with posted := true }, { txRow2 with posted := true }]
    ∧ editTransaction env9 storeP 1 bodyRemoveOne 9 99
        = (storeP, .error (.badRequest "Posted transactions cannot be edited."
            "POSTING_JOURNAL.ERRORS.TRANSACTION_ALREADY_POSTED")) :=
  ⟨rfl, editTransaction_posted_rejected env9 storeP 1 bodyRemoveOne 9 99
    [{ txRow1 with posted := true }, { txRow2 with posted := true }] rfl (by decide)⟩

/-- An edit body adding one row while removing three (one of them phantom):
`existing - removed + added = 2 - 3 + 1 = 0 < 2`. -/
def bodyC1 : EditBody :=
  { added := [{ uuid := 13, record_uuid := 1, account_number := some 101 }],
    changed := [],
    removed := [{ uuid := 11 }, { uuid := 12 }, { uuid := 21 }] }

/-- Counterexample for C1: the request leaves
`existing - removed + added = 0 < 2` rows, yet the edit is NOT rejected with
`TRANSACTION_MUST_CONTAIN_ROWS` — it succeeds and commits (the guard only
fires when `added` is empty or the resulting count is exactly `1`). -/
theorem editTransaction_rowcount_cex :
    (lookupTransaction storeU 1).map List.length = .ok 2
    ∧ ((2 : Int) - 3 + 1 < 2)
    ∧ isOkE (editTransaction env9 storeU 1 bodyC1 9 99).2 = true
    ∧ (editTransaction env9 storeU 1 bodyC1 9 99).1 ≠ storeU := by
  refine ⟨rfl, by decide, rfl, ?_⟩
  intro h
  have h1 : (editTransaction env9 storeU 1 bodyC1 9 99).1.transaction_history.length = 1 := rfl
  rw [h] at h1
  simp [storeU] at h1

/-- C1 (amended): against an existing transaction whose first loaded row is
unposted, an edit with `(existing - removed + added) < 2` fails with
`BadRequest` (`TRANSACTION_MUST_CONTAIN_ROWS`) — leaving the store untouched,
with no row mutation and no history record — provided additionally that
`added` is empty or the resulting count is exactly `1`; when `added` is
nonempty and `existing - removed + added ≤ 0` the guard does not fire. -/
theorem editTransaction_rowcount_guard (env : Env) (store : Store) (recordUuid : Nat)
    (body : EditBody) (userId histUuid : Nat) (first : JRow) (rest : List JRow)
    (hlook : lookupTransaction store recordUuid = .ok (first :: rest))
    (hunposted : first.posted = false)
    (hcount : (body.added.length : Int) - body.removed.length + (first :: rest).length < 2)
    (hfire : body.added.length = 0 ∨
      (body.added.length : Int) - body.removed.length + (first :: rest).length = 1) :
    editTransaction env store recordUuid body userId histUuid
      = (store, .error (.badRequest "The transaction has too few rows."
          "POSTING_JOURNAL.ERRORS.TRANSACTION_MUST_CONTAIN_ROWS")) := by
  unfold editTransaction
  rw [hlook]
  dsimp only
  rw [hunposted]
  simp only [Bool.false_eq_true, if_false]
  have hcond : (body.added.length = 0 ∧ body.removed.length ≥ (first :: rest).length)
      ∨ ((body.added.length : Int) - body.removed.length + (first :: rest).length = 1) := by
    rcases hfire with hA | hnet
    · by_cases hnet1 :
          (body.added.length : Int) - body.removed.length + (first :: rest).length = 1
      · exact Or.inr hnet1
      · refine Or.inl ⟨hA, ?_⟩
        rw [hA] at hcount hnet1
        omega
    · exact Or.inr hnet
  rw [if_pos]
  · rcases hcond with ⟨h1, h2⟩ | h1
    · exact Or.inl ⟨by simpa using h1, by simpa using h2⟩
    · exact Or.inr h1

/-- Witness for C1 (amended): removing one of the two rows (resulting count
`1`) is rejected with `TRANSACTION_MUST_CONTAIN_ROWS` and the store is kept
intact. -/
theorem editTransaction_rowcount_guard_witness :
    lookupTransaction storeU 1 = .ok [txRow1, txRow2]
    ∧ ((0 : Int) - 1 + 2 < 2)
    ∧ editTransaction env9 storeU 1 bodyRemoveOne 9 99
        = (storeU, .error (.badRequest "The transaction has too few rows."
            "POSTING_JOURNAL.ERRORS.TRANSACTION_MUST_CONTAIN_ROWS")) :=
  ⟨rfl, by decide,
    editTransaction_rowcount_guard env9 storeU 1 bodyRemoveOne 9 99 txRow1 [txRow2]
      rfl rfl (by decide) (Or.inl rfl)⟩

/-- The effective-date rule as the claim states it: the latest (last-wins)
`trans_date` among changed rows, else among ADDED rows, else the existing
transaction's date. -/
def claimedEffectiveDate (changedRows : List (Nat × JRow)) (addedRows : List JRow)
    (oldRows : List JRow) : Option Date :=
  ((((changedRows.map Prod.snd).map (fun r => r.trans_date)).filterMap (fun d => d)).getLast?).or
    ((((addedRows.map (fun r => r.trans_date)).filterMap (fun d => d)).getLast?).or
      (((oldRows.map (fun r => r.trans_date)).filterMap (fun d => d)).getLast?))

/-- Lookup oracles whose fiscal-calendar resolution succeeds only at
2024-02-15: they discriminate which date the edit resolves. -/
def envC2 : Env :=
  { env9 with lookupFiscalYearByDate := fun d =>
      if d = some 20240215 then .ok fy9 else .error (.notFound "no fiscal year") }

/-- An edit body whose only content is an ADDED row dated 2024-02-15. -/
def bodyC2add : EditBody :=
  { added := [{ uuid := 13, record_uuid := 1, account_number := some 101,
                trans_date := some 20240215 }],
    changed := [], removed := [] }

/-- Counterexample for C2: with no changed rows, an added row dated
2024-02-15 against the transaction dated 2024-01-01, the claim's rule picks
2024-02-15, but `getTransactionDate` — which never sees added rows — picks
2024-01-01; accordingly the edit resolves the fiscal year at 2024-01-01 and
fails against a calendar defined only at 2024-02-15. -/
theorem effectiveDate_ignores_added_cex :
    claimedEffectiveDate [] bodyC2add.added [txRow1, txRow2] = some 20240215
    ∧ getTransactionDate [] [txRow1, txRow2] = some 20240101
    ∧ (20240215 : Date) ≠ 20240101
    ∧ isOkE (editTransaction envC2 storeU 1 bodyC2add 9 99).2 = false :=
  ⟨rfl, rfl, by decide, rfl⟩

/-- An edit body whose only content is a CHANGED row dated 2024-02-15. -/
def bodyC2chg : EditBody :=
  { added := [], changed := [(11, { trans_date := some 20240215 })], removed := [] }

/-- C2 (amended): the effective transaction date used for fiscal-year
resolution is the last truthy `trans_date` of the sequence built as existing
rows followed by changed rows — the last changed row's date when any changed
row carries one, else the existing transaction's last date; ADDED rows do
not participate.  In particular, for an existing transaction dated
2024-01-01 and a changed row with `trans_date` 2024-02-15, the edit resolves
the fiscal year of 2024-02-15 (it succeeds against a calendar defined only
at that date). -/
theorem effectiveDate_last_wins :
    (∀ (changed : List (Nat × JRow)) (old : List JRow),
      getTransactionDate changed old =
        ((((changed.map Prod.snd).map (fun r => r.trans_date)).filterMap (fun d => d)).getLast?).or
          (((old.map (fun r => r.trans_date)).filterMap (fun d => d)).getLast?))
    ∧ getTransactionDate bodyC2chg.changed [txRow1, txRow2] = some 20240215
    ∧ isOkE (editTransaction envC2 storeU 1 bodyC2chg 9 99).2 = true := by
  refine ⟨?_, rfl, rfl⟩
  intro changed old
  unfold getTransactionDate
  dsimp only
  rw [List.filterMap_append, List.getLast?_append]

/-- C4: when the edit reaches the row-transform stage and any single
scheduled lookup (account, entity, reference or exchange-rate conversion) of
the added or changed batch fails, the request fails and the store afterwards
is exactly the pre-edit store: no row deletion, insertion or update and no
transaction-history record is visible, because nothing executes the queued
queries before `transaction.execute()`. -/
theorem editTransaction_atomic_on_lookup_failure (env : Env) (store : Store)
    (recordUuid : Nat) (body : EditBody) (userId histUuid : Nat) (first : JRow)
    (rest : List JRow) (fy : FiscalEntry) (ra rc : List JRow)
    (ea ec : List ScheduleEntry)
    (hlook : lookupTransaction store recordUuid = .ok (first :: rest))
    (hunposted : first.posted = false)
    (hcount : ¬ ((body.added.length = 0 ∧ body.removed.length ≥ (first :: rest).length)
      ∨ ((body.added.length : Int) - body.removed.length + (first :: rest).length = 1)))
    (hfy : env.lookupFiscalYearByDate (getTransactionDate body.changed (first :: rest))
      = .ok fy)
    (hlocked : fy.locked = false)
    (hscanA : scanRows true ⟨first.project_id, first.trans_date, first.currency_id⟩ fy 0
      body.added = .ok (ra, ea))
    (hscanC : scanRows false ⟨first.project_id, first.trans_date, first.currency_id⟩ fy 0
      (body.changed.map Prod.snd) = .ok (rc, ec))
    (hfail : (∃ e ∈ ea, isOkE (resolveEntry env e) = false)
      ∨ (∃ e ∈ ec, isOkE (resolveEntry env e) = false)) :
    (editTransaction env store recordUuid body userId histUuid).1 = store
    ∧ isOkE (editTransaction env store recordUuid body userId histUuid).2 = false := by
  unfold editTransaction
  rw [hlook]
  dsimp only
  rw [hunposted]
  simp only [Bool.false_eq_true, if_false]
  rw [if_neg (by exact_mod_cast hcount)]
  rw [hfy]
  dsimp only
  rw [hlocked]
  simp only [Bool.false_eq_true, if_false]
  unfold transformColumns transformWithCtx
  dsimp only
  rw [hscanA]
  dsimp only
  cases hresA : resolveAll env ea with
  | error err => exact ⟨rfl, rfl⟩
  | ok assignsA =>
    dsimp only
    rcases hfail with hfA | hfC
    · have hAfail := resolveAll_error_of_mem env ea hfA
      rw [hresA] at hAfail
      simp [isOkE] at hAfail
    · rw [hscanC]
      dsimp only
      have hCfail := resolveAll_error_of_mem env ec hfC
      cases hresC : resolveAll env ec with
      | ok tl =>
        rw [hresC] at hCfail
        simp [isOkE] at hCfail
      | error err => exact ⟨rfl, rfl⟩

/-- Lookup oracles whose account resolution always fails (a rejected query
promise). -/
def envFail : Env := { env9 with accountIdsByNumber := fun _ => .error .storeFailure }

/-- An edit body adding one row that needs an account lookup. -/
def bodyC4 : EditBody :=
  { added := [{ uuid := 13, record_uuid := 1, account_number := some 101 }],
    changed := [], removed := [] }

/-- Witness for C4: with the account resolver failing, the edit fails and
the store afterwards is exactly the pre-edit store. -/
theorem editTransaction_atomic_on_lookup_failure_witness :
    isOkE (resolveEntry envFail ⟨0, .accountId, .account 101⟩) = false
    ∧ (editTransaction envFail storeU 1 bodyC4 9 99).1 = storeU
    ∧ isOkE (editTransaction envFail storeU 1 bodyC4 9 99).2 = false :=
  ⟨rfl,
    (editTransaction_atomic_on_lookup_failure envFail storeU 1 bodyC4 9 99 txRow1 [txRow2]
      fy9 [scrubRow fy9 { uuid := 13, record_uuid := 1, account_number := some 101 }] []
      [⟨0, .accountId, .account 101⟩] []
      rfl rfl (by decide) rfl rfl rfl rfl
      (Or.inl ⟨⟨0, .accountId, .account 101⟩, List.mem_singleton.mpr rfl, rfl⟩)).1,
    (editTransaction_atomic_on_lookup_failure envFail storeU 1 bodyC4 9 99 txRow1 [txRow2]
      fy9 [scrubRow fy9 { uuid := 13, record_uuid := 1, account_number := some 101 }] []
      [⟨0, .accountId, .account 101⟩] []
      rfl rfl (by decide) rfl rfl rfl rfl
      (Or.inl ⟨⟨0, .accountId, .account 101⟩, List.mem_singleton.mpr rfl, rfl⟩)).2⟩

/-- Positional pairing: every left element of a `Forall₂` has a related
right element. -/
theorem forall₂_exists_right {α β : Type} {R : α → β → Prop} :
    ∀ {l₁ : List α} {l₂ : List β}, List.Forall₂ R l₁ l₂ → ∀ x ∈ l₁, ∃ y ∈ l₂, R x y := by
  intro l₁ l₂ h
  induction h with
  | nil => intro x hx; cases hx
  | cons hR _ ih =>
    intro x hx
    rcases List.mem_cons.mp hx with rfl | hm
    · exact ⟨_, List.mem_cons_self _ _, hR⟩
    · obtain ⟨y, hy, hRy⟩ := ih x hm
      exact ⟨y, List.mem_cons_of_mem _ hy, hRy⟩

/-- A truthy `debit_equiv` schedules its exchange-rate conversion. -/
theorem rowEntries_debit_mem (ctx : TxContext) (idx : Nat) (row : JRow) (v : ℚ)
    (h : row.debit_equiv = some v) (hv : v ≠ 0) :
    (⟨idx, .debit, .exchange v ctx.currencyId (exchangeDate row ctx) ctx.projectId⟩ :
      ScheduleEntry) ∈ rowEntries ctx idx row := by
  unfold rowEntries
  simp [h, hv]

/-- A truthy `credit_equiv` schedules its exchange-rate conversion. -/
theorem rowEntries_credit_mem (ctx : TxContext) (idx : Nat) (row : JRow) (v : ℚ)
    (h : row.credit_equiv = some v) (hv : v ≠ 0) :
    (⟨idx, .credit, .exchange v ctx.currencyId (exchangeDate row ctx) ctx.projectId⟩ :
      ScheduleEntry) ∈ rowEntries ctx idx row := by
  unfold rowEntries
  simp [h, hv]

/-- A conversion writing to `debit` is scheduled exactly when `debit_equiv`
is truthy (present and nonzero). -/
theorem rowEntries_debit_scheduled_iff (ctx : TxContext) (idx : Nat) (row : JRow) :
    (∃ e ∈ rowEntries ctx idx row, e.target = FieldTarget.debit)
      ↔ truthyQ row.debit_equiv = true := by
  constructor
  · rintro ⟨e, he, ht⟩
    unfold rowEntries at he
    simp only [List.mem_append] at he
    rcases he with ((((h | h) | h) | h) | h) <;> (split at h <;> simp_all [truthyQ])
  · intro htr
    unfold truthyQ at htr
    cases hde : row.debit_equiv with
    | none => rw [hde] at htr; cases htr
    | some v =>
      rw [hde] at htr
      have hv : v ≠ 0 := by simpa using htr
      exact ⟨_, rowEntries_debit_mem ctx idx row v hde hv, rfl⟩

/-- A conversion writing to `credit` is scheduled exactly when
`credit_equiv` is truthy (present and nonzero). -/
theorem rowEntries_credit_scheduled_iff (ctx : TxContext) (idx : Nat) (row : JRow) :
    (∃ e ∈ rowEntries ctx idx row, e.target = FieldTarget.credit)
      ↔ truthyQ row.credit_equiv = true := by
  constructor
  · rintro ⟨e, he, ht⟩
    unfold rowEntries at he
    simp only [List.mem_append] at he
    rcases he with ((((h | h) | h) | h) | h) <;> (split at h <;> simp_all [truthyQ])
  · intro htr
    unfold truthyQ at htr
    cases hce : row.credit_equiv with
    | none => rw [hce] at htr; cases htr
    | some v =>
      rw [hce] at htr
      have hv : v ≠ 0 := by simpa using htr
      exact ⟨_, rowEntries_credit_mem ctx idx row v hce hv, rfl⟩

/-- The error raised by a falsy (zero or `NULL`) converted amount. -/
def missingRateErr : JErr :=
  .badRequest "Missing or corrupt exchange rate for rows"
    "POSTING_JOURNAL.ERRORS.MISSING_EXCHANGE_RATE"

/-- If some scheduled lookup fails and every failing lookup is a falsy
conversion (all other lookups succeed), the batch fails with exactly
`MISSING_EXCHANGE_RATE`. -/
theorem transform_missing_rate (env : Env) (rows : List JRow) (newRecord : Bool)
    (ctx : TxContext) (fy : FiscalEntry) (rows' : List JRow)
    (entries : List ScheduleEntry)
    (hscan : scanRows newRecord ctx fy 0 rows = .ok (rows', entries))
    (hall : ∀ e ∈ entries, isOkE (resolveEntry env e) = false →
      resolveEntry env e = .error missingRateErr)
    (hex : ∃ e ∈ entries, isOkE (resolveEntry env e) = false) :
    transformWithCtx env rows newRecord ctx fy = .error missingRateErr := by
  unfold transformWithCtx
  rw [hscan]
  dsimp only
  rw [resolveAll_error_uniform env missingRateErr entries hall hex]

/-- A conversion resolving to a falsy amount raises `MISSING_EXCHANGE_RATE`
at its own lookup. -/
theorem resolveEntry_zero_amount (env : Env) (e : ScheduleEntry) (v : ℚ) (c : Nat)
    (d : Option Date) (p : Nat) (hq : e.query = .exchange v c d p)
    (hzero : env.exchangeAmount v c d p = .ok 0) :
    resolveEntry env e = .error missingRateErr := by
  unfold resolveEntry
  rw [hq]
  dsimp only
  rw [hzero]
  simp [missingRateErr]

/-- On success, a row with truthy `debit_equiv` gets `debit` set to its own
conversion's (truthy) result. -/
theorem transform_debit_success (env : Env) (rows : List JRow) (newRecord : Bool)
    (ctx : TxContext) (fy : FiscalEntry) (out : List JRow) (i : Nat) (row : JRow) (v : ℚ)
    (hok : transformWithCtx env rows newRecord ctx fy = .ok out)
    (hrow : rows[i]? = some row) (hde : row.debit_equiv = some v) (hv : v ≠ 0) :
    ∃ a : ℚ, a ≠ 0
      ∧ env.exchangeAmount v ctx.currencyId (exchangeDate row ctx) ctx.projectId = .ok a
      ∧ ∃ row', out[i]? = some row' ∧ row'.debit = some a := by
  unfold transformWithCtx at hok
  cases hscan : scanRows newRecord ctx fy 0 rows with
  | error e => rw [hscan] at hok; cases hok
  | ok p =>
    rw [hscan] at hok
    dsimp only at hok
    cases hres : resolveAll env p.2 with
    | error e => rw [hres] at hok; cases hok
    | ok assigns =>
      rw [hres] at hok
      cases hok
      have hmem : (⟨i, .debit,
          .exchange v ctx.currencyId (exchangeDate row ctx) ctx.projectId⟩ :
            ScheduleEntry) ∈ p.2 := by
        have hoim := scanRows_entries_of_mem newRecord ctx fy 0 rows p.1 p.2 hscan i row hrow
        rw [Nat.zero_add] at hoim
        exact hoim _ (rowEntries_debit_mem ctx i row v hde hv)
      have hf₂ := resolveAll_ok_forall₂ env p.2 assigns hres
      obtain ⟨a, ha, hRa⟩ := forall₂_exists_right hf₂ _ hmem
      unfold resolveEntry at hRa
      dsimp only at hRa
      cases hex : env.exchangeAmount v ctx.currencyId (exchangeDate row ctx) ctx.projectId with
      | error err => rw [hex] at hRa; cases hRa
      | ok amount =>
        rw [hex] at hRa
        dsimp only at hRa
        by_cases hz : amount = 0
        · rw [if_pos hz] at hRa; cases hRa
        · rw [if_neg hz] at hRa
          cases hRa
          refine ⟨amount, hz, rfl, ?_⟩
          have hknd : (assigns.map assignKey).Nodup := by
            rw [resolveAll_keys_eq env p.2 assigns hf₂]
            exact scanRows_keys_nodup newRecord ctx fy 0 rows p.1 p.2 hscan
          have hp1 : p.1[i]? = some (scrubRow fy row) := by
            rw [scanRows_ok_rows newRecord ctx fy 0 rows p.1 p.2 hscan,
              List.getElem?_map, hrow]
            rfl
          obtain ⟨row', hfin, hfv⟩ := foldl_applyAssign_fieldValue
            ⟨i, .debit, .rat amount⟩ assigns ha hknd trivial p.1 (scrubRow fy row) hp1
          refine ⟨row', hfin, ?_⟩
          unfold fieldValue at hfv
          cases hdb : row'.debit with
          | none => rw [hdb] at hfv; cases hfv
          | some q =>
            rw [hdb] at hfv
            have hq : q = amount := by simpa using hfv
            rw [hq]

/-- On success, a row with truthy `credit_equiv` gets `credit` set to its
own conversion's (truthy) result. -/
theorem transform_credit_success (env : Env) (rows : List JRow) (newRecord : Bool)
    (ctx : TxContext) (fy : FiscalEntry) (out : List JRow) (i : Nat) (row : JRow) (v : ℚ)
    (hok : transformWithCtx env rows newRecord ctx fy = .ok out)
    (hrow : rows[i]? = some row) (hce : row.credit_equiv = some v) (hv : v ≠ 0) :
    ∃ a : ℚ, a ≠ 0
      ∧ env.exchangeAmount v ctx.currencyId (exchangeDate row ctx) ctx.projectId = .ok a
      ∧ ∃ row', out[i]? = some row' ∧ row'.credit = some a := by
  unfold transformWithCtx at hok
  cases hscan : scanRows newRecord ctx fy 0 rows with
  | error e => rw [hscan] at hok; cases hok
  | ok p =>
    rw [hscan] at hok
    dsimp only at hok
    cases hres : resolveAll env p.2 with
    | error e => rw [hres] at hok; cases hok
    | ok assigns =>
      rw [hres] at hok
      cases hok
      have hmem : (⟨i, .credit,
          .exchange v ctx.currencyId (exchangeDate row ctx) ctx.projectId⟩ :
            ScheduleEntry) ∈ p.2 := by
        have hoim := scanRows_entries_of_mem newRecord ctx fy 0 rows p.1 p.2 hscan i row hrow
        rw [Nat.zero_add] at hoim
        exact hoim _ (rowEntries_credit_mem ctx i row v hce hv)
      have hf₂ := resolveAll_ok_forall₂ env p.2 assigns hres
      obtain ⟨a, ha, hRa⟩ := forall₂_exists_right hf₂ _ hmem
      unfold resolveEntry at hRa
      dsimp only at hRa
      cases hex : env.exchangeAmount v ctx.currencyId (exchangeDate row ctx) ctx.projectId with
      | error err => rw [hex] at hRa; cases hRa
      | ok amount =>
        rw [hex] at hRa
        dsimp only at hRa
        by_cases hz : amount = 0
        · rw [if_pos hz] at hRa; cases hRa
        · rw [if_neg hz] at hRa
          cases hRa
          refine ⟨amount, hz, rfl, ?_⟩
          have hknd : (assigns.map assignKey).Nodup := by
            rw [resolveAll_keys_eq env p.2 assigns hf₂]
            exact scanRows_keys_nodup newRecord ctx fy 0 rows p.1 p.2 hscan
          have hp1 : p.1[i]? = some (scrubRow fy row) := by
            rw [scanRows_ok_rows newRecord ctx fy 0 rows p.1 p.2 hscan,
              List.getElem?_map, hrow]
            rfl
          obtain ⟨row', hfin, hfv⟩ := foldl_applyAssign_fieldValue
            ⟨i, .credit, .rat amount⟩ assigns ha hknd trivial p.1 (scrubRow fy row) hp1
          refine ⟨row', hfin, ?_⟩
          unfold fieldValue at hfv
          cases hdb : row'.credit with
          | none => rw [hdb] at hfv; cases hfv
          | some q =>
            rw [hdb] at hfv
            have hq : q = amount := by simpa using hfv
            rw [hq]

/-- C6 (amended): for every row, a rate conversion is scheduled for `debit`
(respectively `credit`) iff `debit_equiv` (respectively `credit_equiv`) is
truthy — present AND nonzero — so no conversion is performed for a
present-but-zero equivalent; when a scheduled conversion resolves to a falsy
amount (a genuine zero or `NULL`), the transform fails with `BadRequest`
(`MISSING_EXCHANGE_RATE`) provided every other lookup succeeds; and on
success each such row's `debit` (respectively `credit`) is set to its own
conversion's necessarily-truthy converted amount. -/
theorem transform_exchange_truthy_guard :
    (∀ (ctx : TxContext) (idx : Nat) (row : JRow),
      ((∃ e ∈ rowEntries ctx idx row, e.target = FieldTarget.debit)
          ↔ truthyQ row.debit_equiv = true)
        ∧ ((∃ e ∈ rowEntries ctx idx row, e.target = FieldTarget.credit)
          ↔ truthyQ row.credit_equiv = true))
    ∧ (∀ (env : Env) (rows : List JRow) (newRecord : Bool) (ctx : TxContext)
        (fy : FiscalEntry) (rows' : List JRow) (entries : List ScheduleEntry),
        scanRows newRecord ctx fy 0 rows = .ok (rows', entries) →
        (∀ e ∈ entries, isOkE (resolveEntry env e) = false →
          resolveEntry env e = .error missingRateErr) →
        (∃ e ∈ entries, isOkE (resolveEntry env e) = false) →
        transformWithCtx env rows newRecord ctx fy = .error missingRateErr)
    ∧ (∀ (env : Env) (rows : List JRow) (newRecord : Bool) (ctx : TxContext)
        (fy : FiscalEntry) (out : List JRow) (i : Nat) (row : JRow) (v : ℚ),
        transformWithCtx env rows newRecord ctx fy = .ok out →
        rows[i]? = some row → row.debit_equiv = some v → v ≠ 0 →
        ∃ a : ℚ, a ≠ 0
          ∧ env.exchangeAmount v ctx.currencyId (exchangeDate row ctx) ctx.projectId = .ok a
          ∧ ∃ row', out[i]? = some row' ∧ row'.debit = some a)
    ∧ (∀ (env : Env) (rows : List JRow) (newRecord : Bool) (ctx : TxContext)
        (fy : FiscalEntry) (out : List JRow) (i : Nat) (row : JRow) (v : ℚ),
        transformWithCtx env rows newRecord ctx fy = .ok out →
        rows[i]? = some row → row.credit_equiv = some v → v ≠ 0 →
        ∃ a : ℚ, a ≠ 0
          ∧ env.exchangeAmount v ctx.currencyId (exchangeDate row ctx) ctx.projectId = .ok a
          ∧ ∃ row', out[i]? = some row' ∧ row'.credit = some a) :=
  ⟨fun ctx idx row =>
    ⟨rowEntries_debit_scheduled_iff ctx idx row, rowEntries_credit_scheduled_iff ctx idx row⟩,
   transform_missing_rate, transform_debit_success, transform_credit_success⟩

/-- A changed row whose `debit_equiv` is present but zero. -/
def rowC6 : JRow := { debit_equiv := some 0 }

/-- Counterexample for C6 as stated: with `debit_equiv` present but zero, no
conversion is scheduled and the transform SUCCEEDS with `debit` untouched,
whereas the claim (a conversion is performed whenever the field is present,
failing on any falsy converted amount including a genuine zero) predicts a
`MISSING_EXCHANGE_RATE` failure. -/
theorem transform_exchange_present_zero_cex :
    rowC6.debit_equiv = some 0
    ∧ rowEntries ctx9 0 rowC6 = []
    ∧ transformWithCtx env9 [rowC6] false ctx9 fy9 = .ok [rowC6]
    ∧ rowC6.debit = none :=
  ⟨rfl, rfl, rfl, rfl⟩

/-- A changed row with truthy `debit_equiv` and `credit_equiv`. -/
def rowC6w : JRow := { debit_equiv := some 2, credit_equiv := some 5 }

/-- Oracles whose exchange rate is `1` (the conversion returns the
equivalent unchanged). -/
def envC6 : Env := { env9 with exchangeAmount := fun v _ _ _ => .ok v }

/-- Oracles whose conversions all return the falsy amount `0`. -/
def envC6z : Env := { env9 with exchangeAmount := fun _ _ _ _ => .ok 0 }

/-- Witness for C6 (amended): the zero-conversion environment fails the
batch with `MISSING_EXCHANGE_RATE`, and the rate-one environment sets
`debit` to the truthy converted amount. -/
theorem transform_exchange_truthy_guard_witness :
    truthyQ rowC6w.debit_equiv = true
    ∧ transformWithCtx envC6z [rowC6w] false ctx9 fy9 = .error missingRateErr
    ∧ (∃ a : ℚ, a ≠ 0
        ∧ envC6.exchangeAmount 2 ctx9.currencyId (exchangeDate rowC6w ctx9) ctx9.projectId
            = .ok a
        ∧ ∃ row', ([{ rowC6w with debit := some 2, credit := some 5 }] : List JRow)[0]?
            = some row' ∧ row'.debit = some a) :=
  ⟨rfl,
   transform_exchange_truthy_guard.2.1 envC6z [rowC6w] false ctx9 fy9 [rowC6w]
     [⟨0, .debit, .exchange 2 ctx9.currencyId (some 20240101) ctx9.projectId⟩,
      ⟨0, .credit, .exchange 5 ctx9.currencyId (some 20240101) ctx9.projectId⟩]
     rfl
     (by
       intro e he _
       rcases List.mem_cons.mp he with rfl | he2
       · rfl
       · rcases List.mem_cons.mp he2 with rfl | he3
         · rfl
         · cases he3)
     ⟨⟨0, .debit, .exchange 2 ctx9.currencyId (some 20240101) ctx9.projectId⟩,
       List.mem_cons_self _ _, rfl⟩,
   transform_exchange_truthy_guard.2.2.1 envC6 [rowC6w] false ctx9 fy9
     [{ rowC6w with debit := some 2, credit := some 5 }] 0 rowC6w 2
     rfl rfl rfl (by decide)⟩
